import Mathlib

/-!
# Airline Reservation and Management System: reservation and payment core

A shallow embedding of the reservation store, the payment flow and the booking,
cancellation, check-in and cash-confirmation operations of

* `src/src/Flight.cpp`       (`Flight::toJson`, `Flight::fromJson`)
* `src/src/Reservation.cpp`  (`toJson`, `fromJson`, `loadReservations`, `saveReservations`,
                              `removeReservation`, `printBoardingPass`, agent-file twins)
* `src/src/Payment.cpp`      (`processPayment`, `processCardPayment`, `saveCardInfo`)
* `src/src/Passenger.cpp`    (`bookFlight`, `checkIn`, `cancelReservation`, `confirmCashPayment`)
* `src/src/BookingAgent.cpp` (`bookFlight`, `checkIn`, `cancelReservation`,
                              `confirmCashPayment`)

Modelling conventions.

* A backing file is represented by the JSON object it holds: a list of `(key, array)` pairs,
  as `nlohmann::json` keeps an object in a `std::map` ordered by key.  A file that is
  missing (or holds `null`) behaves like the empty object in every function modelled here and
  is represented by `[]`.  Files are taken to hold well-formed JSON of the shape the program
  writes and to be writable.
* A stored record is represented by the `Reservation` that `fromJson` reads from it; `toJson`
  and `fromJson` are modelled on JSON values and shown to be inverse on every reservation.
* Console input is passed in as explicit arguments, console output is the returned outcome.
* The results of `rand()` are explicit arguments.
* C++ `int` values are `Int`; exceptions are `none`.
-/

set_option autoImplicit false

namespace Airline

/-! ## JSON values (the fragment of `nlohmann::json` the core uses) -/

/-- JSON values: null, booleans, integers, strings, arrays and objects. -/
inductive Json where
  | null
  | bool (b : Bool)
  | int (n : Int)
  | str (s : String)
  | arr (xs : List Json)
  | obj (kvs : List (String × Json))

/-- Value of a 64-bit JSON integer after `static_cast<int>` (two's complement, 32 bits). -/
def wrap32 (n : Int) : Int := (n + 2 ^ 31) % 2 ^ 32 - 2 ^ 31

/-- Lookup of a key among the members of an object. -/
def Json.lookup (key : String) : List (String × Json) → Option Json
  | [] => none
  | (k, v) :: rest => if k = key then some v else Json.lookup key rest

/-- The call `j.at(key)`: the member stored under `key`; throws (here `none`) when `j` is not an
object or has no such member. -/
def Json.atKey (j : Json) (key : String) : Option Json :=
  match j with
  | .obj kvs => Json.lookup key kvs
  | _ => none

/-- The call `j.contains(key)`. -/
def Json.contains (j : Json) (key : String) : Bool :=
  match j with
  | .obj kvs => (Json.lookup key kvs).isSome
  | _ => false

/-- The call `j.get<std::string>()`: throws unless `j` is a string. -/
def Json.getString : Json → Option String
  | .str s => some s
  | _ => none

/-- The call `j.get<int>()`: numbers and booleans convert, anything else throws. -/
def Json.getInt : Json → Option Int
  | .int n => some (wrap32 n)
  | .bool b => some (if b then 1 else 0)
  | _ => none

/-- The call `j.get<bool>()`: throws unless `j` is a boolean. -/
def Json.getBool : Json → Option Bool
  | .bool b => some b
  | _ => none

/-! ## Flight and Reservation records -/

/-- The data members of class `Flight` (`Flight.hpp`). -/
structure Flight where
  flightNumber : String
  origin : String
  destination : String
  departureTime : String
  arrivalTime : String
  aircraftType : String
  totalSeats : Int
  status : String
  flightPrice : String
deriving DecidableEq, Repr

/-- Source function `Flight::toJson`. -/
def Flight.toJson (f : Flight) : Json :=
  .obj [("flightNumber", .str f.flightNumber),
        ("origin", .str f.origin),
        ("destination", .str f.destination),
        ("departureTime", .str f.departureTime),
        ("arrivalTime", .str f.arrivalTime),
        ("aircraftType", .str f.aircraftType),
        ("totalSeats", .int f.totalSeats),
        ("status", .str f.status),
        ("price", .str f.flightPrice)]

/-- The expression `j.at(key).get<std::string>()`. -/
def Json.stringAt (j : Json) (key : String) : Option String :=
  (j.atKey key).bind Json.getString

/-- The expression `j.at(key).get<int>()`. -/
def Json.intAt (j : Json) (key : String) : Option Int :=
  (j.atKey key).bind Json.getInt

/-- The expression `j.at(key).get<bool>()`. -/
def Json.boolAt (j : Json) (key : String) : Option Bool :=
  (j.atKey key).bind Json.getBool

/-- Source function `Flight::fromJson`. -/
def Flight.fromJson (j : Json) : Option Flight :=
  (j.stringAt "flightNumber").bind fun flightNumber =>
  (j.stringAt "origin").bind fun origin =>
  (j.stringAt "destination").bind fun destination =>
  (j.stringAt "departureTime").bind fun departureTime =>
  (j.stringAt "arrivalTime").bind fun arrivalTime =>
  (j.stringAt "aircraftType").bind fun aircraftType =>
  (j.intAt "totalSeats").bind fun totalSeats =>
  (j.stringAt "status").bind fun status =>
  (j.stringAt "price").bind fun price =>
  some ⟨flightNumber, origin, destination, departureTime, arrivalTime, aircraftType,
        totalSeats, status, price⟩

/-- The data members of class `Reservation` (`Reservation.hpp`); the flight pointer of a stored
or booked reservation is never null and is represented by the flight it points to. -/
structure Reservation where
  reservationID : String
  passengerName : String
  flight : Flight
  seatNumber : String
  paymentMethod : String
  paymentDetails : String
  isPaid : Bool
deriving DecidableEq, Repr

namespace Reservation

/-- Source function `Reservation::toJson`. -/
def toJson (r : Reservation) : Json :=
  .obj [("reservationID", .str r.reservationID),
        ("passengerName", .str r.passengerName),
        ("flight", r.flight.toJson),
        ("seatNumber", .str r.seatNumber),
        ("paymentMethod", .str r.paymentMethod),
        ("paymentDetails", .str r.paymentDetails),
        ("isPaid", .bool r.isPaid)]

/-- Source function `Reservation::fromJson`: the constructor leaves `isPaid` false, and the flag is then read
from the object when it has an `isPaid` member. -/
def fromJson (j : Json) : Option Reservation :=
  ((j.atKey "flight").bind Flight.fromJson).bind fun flight =>
  (j.stringAt "reservationID").bind fun reservationID =>
  (j.stringAt "passengerName").bind fun passengerName =>
  (j.stringAt "seatNumber").bind fun seatNumber =>
  (j.stringAt "paymentMethod").bind fun paymentMethod =>
  (j.stringAt "paymentDetails").bind fun paymentDetails =>
  let res : Reservation :=
    ⟨reservationID, passengerName, flight, seatNumber, paymentMethod, paymentDetails, false⟩
  if j.contains "isPaid" then
    (j.boolAt "isPaid").bind fun paid => some { res with isPaid := paid }
  else
    some res

end Reservation

/-! ## The reservation store -/

/-- Content of a reservation file: a JSON object mapping a passenger name to an array of
reservation records. -/
abbrev Store := List (String × List Reservation)

/-- The key order of the `std::map` behind a JSON object (`std::less<std::string>`): the
lexicographic order of the bytes, which on UTF-8 text is the lexicographic order of the
characters. -/
def keyLess (a b : String) : Bool := decide (a.toList < b.toList)

namespace Store

/-- The keys of the object, in file order. -/
def keys (s : Store) : List String := s.map Prod.fst

/-- The array read through `allRes[key]`; a key that is absent reads as an empty array. -/
def entries : Store → String → List Reservation
  | [], _ => []
  | (k, arr) :: rest, key => if k = key then arr else entries rest key

/-- Whether the object has the key. -/
def hasKey (s : Store) (key : String) : Bool := s.any (fun p => decide (p.1 = key))

/-- Adds a member for a key the object does not have yet, at its place in key order. -/
def insertKey : Store → String → List Reservation → Store
  | [], key, arr => [(key, arr)]
  | (k, a) :: rest, key, arr =>
    if keyLess key k then (key, arr) :: (k, a) :: rest else (k, a) :: insertKey rest key arr

/-- Appends a record to the array of a key the object has. -/
def appendAt : Store → String → Reservation → Store
  | [], _, _ => []
  | (k, a) :: rest, key, e =>
    if k = key then (k, a ++ [e]) :: rest else (k, a) :: appendAt rest key e

/-- The statement `allRes[key].push_back(e)`: the member is created when absent. -/
def pushBack (s : Store) (key : String) (e : Reservation) : Store :=
  if s.hasKey key then s.appendAt key e else s.insertKey key [e]

end Store

namespace Reservation

/-- Source function `Reservation::loadReservations`: all records of the file, user by user in key order. -/
def loadReservations (file : Store) : List Reservation :=
  file.flatMap Prod.snd

/-- Source function `Reservation::loadBookingAgentReservations`: the same reading, of the agent file. -/
def loadBookingAgentReservations (file : Store) : List Reservation :=
  file.flatMap Prod.snd

/-- One turn of the loop of `saveReservations`: the record is pushed under its passenger name
unless an entry there already carries its reservation ID. -/
def saveStep (allRes : Store) (res : Reservation) : Store :=
  let userArr := allRes.entries res.passengerName
  let found := userArr.any (fun e => decide (e.reservationID = res.reservationID))
  if found then allRes else allRes.pushBack res.passengerName res

/-- The flag `exists` of that loop turn: whether an entry under the passenger name of `res`
carries the ID of `res`. -/
def foundIn (allRes : Store) (res : Reservation) : Bool :=
  (allRes.entries res.passengerName).any (fun e => decide (e.reservationID = res.reservationID))

/-- Source function `Reservation::saveReservations`: reads the file, merges the given reservations into it
in order, writes the result back. Returns the new file content. -/
def saveReservations (file : Store) (reservations : List Reservation) : Store :=
  reservations.foldl saveStep file

/-- Source function `Reservation::saveBookingAgentReservations`: the same merge, on the agent file. -/
def saveBookingAgentReservations (file : Store) (reservations : List Reservation) : Store :=
  reservations.foldl saveStep file

/-- What `removeReservation` reports. -/
inductive RemoveOutcome where
  | removed
  | notFound
deriving DecidableEq, Repr

/-- Source function `Reservation::removeReservation`: loads the file, erases the first reservation with the
given ID from the loaded list and, when one was found, passes the shortened list to
`saveReservations`. -/
def removeReservation (file : Store) (reservationID : String) : RemoveOutcome × Store :=
  let resList := loadReservations file
  if resList.any (fun r => decide (r.reservationID = reservationID)) then
    (.removed,
      saveReservations file (resList.eraseP (fun r => decide (r.reservationID = reservationID))))
  else
    (.notFound, file)

/-- The labelled lines `Reservation::printBoardingPass` prints, in order. -/
def printBoardingPass (r : Reservation) : List (String × String) :=
  [("Reservation ID", r.reservationID),
   ("Passenger", r.passengerName),
   ("Flight", r.flight.flightNumber),
   ("Origin", r.flight.origin),
   ("Destination", r.flight.destination),
   ("Departure", r.flight.departureTime),
   ("Seat", r.seatNumber)]

end Reservation

/-! ## Payment (`Payment.cpp`) -/

/-- One record of `user_cards.json`. -/
structure Card where
  cardNumber : String
  cvv : String
  expDate : String
  cardHolder : String
deriving DecidableEq, Repr

/-- Content of `user_cards.json`: a JSON object mapping a username to one card record. -/
abbrev CardStore := List (String × Card)

namespace CardStore

/-- The member `allCards[username]`, when `allCards.contains(username)`. -/
def find : CardStore → String → Option Card
  | [], _ => none
  | (k, c) :: rest, key => if k = key then some c else find rest key

/-- The assignment `allCards[username] = userCard`: replaces the member or adds it at its place
in key order. -/
def set : CardStore → String → Card → CardStore
  | [], key, c => [(key, c)]
  | (k, c0) :: rest, key, c =>
    if k = key then (k, c) :: rest
    else if keyLess key k ∧ find rest key = none then (key, c) :: (k, c0) :: rest
    else (k, c0) :: set rest key c

end CardStore

/-- What the user types during `Payment::processPayment`. -/
structure PaymentInput where
  /-- The number read at "Enter 1 or 2". -/
  method : Int
  /-- The text read at "Enter saved card CVV" (asked only when a card is saved). -/
  savedCvv : String
  /-- The text read at "Enter card number". -/
  cardNumber : String
  /-- The text read at "Enter expiration date". -/
  expDate : String
  /-- The line read at "Enter cardholder name". -/
  cardHolder : String
  /-- The text read at "Enter CVV". -/
  cvv : String
deriving DecidableEq, Repr

namespace Payment

/-- Source function `Payment::saveCardInfo`: reads the card file (a file that cannot be opened reads as empty),
sets the record of the user and writes the file back. -/
def saveCardInfo (cardNumber cvv expDate cardHolder username : String)
    (cards : Option CardStore) : Option CardStore :=
  some (CardStore.set (cards.getD []) username ⟨cardNumber, cvv, expDate, cardHolder⟩)

/-- Source function `Payment::processCardPayment`; `cards` is `none` when the card file cannot be opened.
Returns the result, the reservation as the call leaves it, and the card file. -/
def processCardPayment (reservation : Reservation) (inp : PaymentInput)
    (cards : Option CardStore) : Bool × Reservation × Option CardStore :=
  let username := reservation.passengerName
  match cards with
  | none => (false, reservation, cards)
  | some allCards =>
    let newCard : Bool × Reservation × Option CardStore :=
      let r1 := { reservation with paymentMethod := inp.cardNumber }
      let r2 := { r1 with paymentDetails := inp.cvv }
      let cards2 := saveCardInfo inp.cardNumber inp.cvv inp.expDate inp.cardHolder username cards
      (true, { r2 with isPaid := true }, cards2)
    match allCards.find username with
    | some card =>
      if card.cvv = inp.savedCvv then (true, { reservation with isPaid := true }, cards)
      else newCard
    | none => newCard

/-- Source function `Payment::processPayment`. -/
def processPayment (reservation : Reservation) (inp : PaymentInput)
    (cards : Option CardStore) : Bool × Reservation × Option CardStore :=
  if inp.method = 1 then
    let r1 := { reservation with paymentMethod := "Cash" }
    (true, { r1 with isPaid := false }, cards)
  else if inp.method = 2 then
    processCardPayment reservation inp cards
  else
    (false, reservation, cards)

end Payment

/-! ## Booking (`Passenger.cpp`, `BookingAgent.cpp`) -/

/-- The characters `isspace` accepts in the C locale. -/
def isSpace (c : Char) : Bool :=
  c.toNat = 32 || (9 ≤ c.toNat && c.toNat ≤ 13)

/-- Value of a run of decimal digits. -/
def digitsValue (ds : List Char) : Int :=
  ds.foldl (fun acc c => acc * 10 + ((c.toNat : Int) - 48)) 0

/-- Source function `std::stoi(s)`: skips leading white space, reads an optional sign and the longest run of
decimal digits; throws (`none`) when there is no digit (`invalid_argument`) or when the value
does not fit an `int` (`out_of_range`). Text after the digits is ignored. -/
def stoi (s : String) : Option Int :=
  let cs := s.toList.dropWhile isSpace
  let signed : Bool × List Char :=
    match cs with
    | c :: t => if c = '-' then (true, t) else if c = '+' then (false, t) else (false, cs)
    | [] => (false, cs)
  let digits := signed.2.takeWhile Char.isDigit
  if digits = [] then none
  else
    let v : Int := if signed.1 then - digitsValue digits else digitsValue digits
    if v < -(2 ^ 31) ∨ 2 ^ 31 - 1 < v then none else some v

/-- Source function `generateRandomReservationID` (the static function of `Passenger.cpp` and the member of
`BookingAgent`, which have the same body); `rand1` and `rand2` are the two results of `rand()`. -/
def generateRandomReservationID (rand1 rand2 : Nat) : String :=
  String.singleton (Char.ofNat (65 + rand1 % 26)) ++ toString (rand2 % 900 + 100)

/-- The loop of `bookFlight` over the flight directory: every flight carrying the number
overwrites `selected`, so the last one stays. -/
def selectFlight (flightsVec : List Flight) (flightNumber : String) : Option Flight :=
  flightsVec.foldl (fun selected fl => if fl.flightNumber = flightNumber then some fl else selected)
    none

/-- The scan of `bookFlight` over the loaded reservations. -/
def occupied (loaded : List Reservation) (flightNumber seat : String) : Bool :=
  loaded.any (fun res => decide (res.flight.flightNumber = flightNumber) &&
    decide (res.seatNumber = seat))

/-- The persistent state: the general reservation file, the booking-agent reservation file and
the card file (`none` when it cannot be opened). -/
structure World where
  general : Store
  agent : Store
  cards : Option CardStore
deriving DecidableEq, Repr

/-- What the user types during `bookFlight`, and what `rand()` returns. -/
structure BookInput where
  flightNumber : String
  seat : String
  rand1 : Nat
  rand2 : Nat
  pay : PaymentInput
deriving DecidableEq, Repr

/-- How a call of `bookFlight` ends. -/
inductive BookOutcome where
  /-- The user entered "0". -/
  | cancelled
  /-- "Invalid flight number. Booking cancelled." -/
  | flightNotFound
  /-- `stoi` threw; nothing in `bookFlight` catches the exception. -/
  | stoiThrew
  /-- "Invalid seat number. Must be ≤ ..." -/
  | invalidSeat
  /-- "Seat ... already reserved. Choose another." -/
  | seatTaken
  /-- "Reservation successful!" -/
  | successful (r : Reservation)
  /-- "Reservation on hold. Confirm payment at airport." -/
  | onHold (r : Reservation)
  /-- "Payment failed. Booking aborted." -/
  | paymentFailed
deriving DecidableEq, Repr

/-- A logged-in passenger: the username and the in-memory `reservations` vector. -/
structure Passenger where
  username : String
  reservations : List Reservation
deriving DecidableEq, Repr

/-- A logged-in booking agent: the username and the in-memory `reservations` vector. -/
structure BookingAgent where
  username : String
  reservations : List Reservation
deriving DecidableEq, Repr

namespace Passenger

/-- The constructor: the view is loaded from the general file. -/
def login (username : String) (w : World) : Passenger :=
  ⟨username, Reservation.loadReservations w.general⟩

/-- Source function `Passenger::bookFlight`. -/
def bookFlight (self : Passenger) (flightsVec : List Flight) (inp : BookInput) (w : World) :
    BookOutcome × Passenger × World :=
  if inp.flightNumber = "0" then (.cancelled, self, w) else
  match selectFlight flightsVec inp.flightNumber with
  | none => (.flightNotFound, self, w)
  | some selected =>
    match stoi inp.seat with
    | none => (.stoiThrew, self, w)
    | some n =>
      if n > selected.totalSeats then (.invalidSeat, self, w) else
      let allRes := Reservation.loadReservations w.general
      if occupied allRes inp.flightNumber inp.seat then (.seatTaken, self, w) else
      let resID := generateRandomReservationID inp.rand1 inp.rand2
      let created : Reservation := ⟨resID, self.username, selected, inp.seat, "", "", false⟩
      let pay := Payment.processPayment created inp.pay w.cards
      let paid := pay.1
      let newRes := pay.2.1
      if paid && newRes.isPaid then
        let general := Reservation.saveReservations w.general (allRes ++ [newRes])
        (.successful newRes,
         { self with reservations := Reservation.loadReservations general },
         { w with general := general, cards := pay.2.2 })
      else if !newRes.isPaid then
        let general := Reservation.saveReservations w.general (allRes ++ [newRes])
        (.onHold newRes,
         { self with reservations := Reservation.loadReservations general },
         { w with general := general, cards := pay.2.2 })
      else
        (.paymentFailed,
         { self with reservations := Reservation.loadReservations w.general },
         { w with cards := pay.2.2 })

end Passenger

namespace BookingAgent

/-- The constructor: the view is loaded from the general file. -/
def login (username : String) (w : World) : BookingAgent :=
  ⟨username, Reservation.loadReservations w.general⟩

/-- Source function `BookingAgent::bookFlight`. -/
def bookFlight (self : BookingAgent) (flightsVec : List Flight) (inp : BookInput) (w : World) :
    BookOutcome × BookingAgent × World :=
  if inp.flightNumber = "0" then (.cancelled, self, w) else
  match selectFlight flightsVec inp.flightNumber with
  | none => (.flightNotFound, self, w)
  | some selected =>
    match stoi inp.seat with
    | none => (.stoiThrew, self, w)
    | some n =>
      if n > selected.totalSeats then (.invalidSeat, self, w) else
      let agentRes := Reservation.loadBookingAgentReservations w.agent
      if occupied agentRes inp.flightNumber inp.seat then (.seatTaken, self, w) else
      let resID := generateRandomReservationID inp.rand1 inp.rand2
      let created : Reservation := ⟨resID, self.username, selected, inp.seat, "", "", false⟩
      let pay := Payment.processPayment created inp.pay w.cards
      let paid := pay.1
      let newRes := pay.2.1
      if paid && newRes.isPaid then
        (.successful newRes, self,
         { general := Reservation.saveReservations w.general (agentRes ++ [newRes]),
           agent := Reservation.saveBookingAgentReservations w.agent (agentRes ++ [newRes]),
           cards := pay.2.2 })
      else if !newRes.isPaid then
        (.onHold newRes, self,
         { general := Reservation.saveReservations w.general (agentRes ++ [newRes]),
           agent := Reservation.saveBookingAgentReservations w.agent (agentRes ++ [newRes]),
           cards := pay.2.2 })
      else
        (.paymentFailed, self, { w with cards := pay.2.2 })

end BookingAgent

/-! ## Check-in, cancellation, cash confirmation (`Passenger.cpp`) -/

/-- How a call of `checkIn` ends. -/
inductive CheckInOutcome where
  /-- "Check-In Successful!", followed by the boarding pass. -/
  | success (boardingPass : List (String × String))
  /-- "Payment pending; cannot check in." -/
  | paymentPending
  /-- "Invalid Reservation ID." -/
  | invalidReservationID
deriving DecidableEq, Repr

/-- How a call of `confirmCashPayment` ends. -/
inductive ConfirmOutcome where
  /-- "Payment confirmed at airport!" ... "Reservation confirmed.", then the boarding pass. -/
  | confirmed (boardingPass : List (String × String))
  /-- "Reservation ID not found or already paid." -/
  | notFoundOrPaid
deriving DecidableEq, Repr

/-- The loop of `confirmCashPayment` over the view: the first reservation with the ID that is
not paid is set paid in place. Returns the view after the update and the updated reservation,
or `none` when the loop ends without a match. -/
def confirmScan (resID : String) : List Reservation → Option (List Reservation × Reservation)
  | [] => none
  | res :: rest =>
    if res.reservationID = resID ∧ res.isPaid = false then
      some ({ res with isPaid := true } :: rest, { res with isPaid := true })
    else
      (confirmScan resID rest).map (fun p => (res :: p.1, p.2))

namespace Passenger

/-- Source function `Passenger::checkIn` with `resID` the ID typed in: the first reservation of the view with
that ID decides. -/
def checkIn (self : Passenger) (resID : String) : CheckInOutcome :=
  match self.reservations.find? (fun res => decide (res.reservationID = resID)) with
  | some res =>
    if res.isPaid then .success res.printBoardingPass else .paymentPending
  | none => .invalidReservationID

/-- Source function `Passenger::cancelReservation` with `resID` the ID typed in. -/
def cancelReservation (self : Passenger) (resID : String) (w : World) :
    Reservation.RemoveOutcome × Passenger × World :=
  let removal := Reservation.removeReservation w.general resID
  (removal.1,
   { self with reservations := Reservation.loadReservations removal.2 },
   { w with general := removal.2 })

/-- Source function `Passenger::confirmCashPayment` with `resID` the ID typed in. -/
def confirmCashPayment (self : Passenger) (resID : String) (w : World) :
    ConfirmOutcome × Passenger × World :=
  match confirmScan resID self.reservations with
  | some (view, res) =>
    (.confirmed res.printBoardingPass,
     { self with reservations := view },
     { w with general := Reservation.saveReservations w.general view })
  | none => (.notFoundOrPaid, self, w)

end Passenger

/-! ## Sessions: sequences of bookings -/

/-- One booking request: who books, through which flow, against which flight directory and
with which inputs. -/
inductive Booking where
  | passenger (username : String) (flightsVec : List Flight) (inp : BookInput)
  | agent (username : String) (flightsVec : List Flight) (inp : BookInput)
deriving DecidableEq, Repr

/-- The persistent state after one booking request by a freshly logged-in actor. -/
def Booking.run (w : World) : Booking → World
  | .passenger username flightsVec inp =>
    ((Passenger.login username w).bookFlight flightsVec inp w).2.2
  | .agent username flightsVec inp =>
    ((BookingAgent.login username w).bookFlight flightsVec inp w).2.2

/-- The persistent state after a sequence of booking requests. -/
def runBookings (w : World) (bs : List Booking) : World :=
  bs.foldl Booking.run w

/-! ## Properties of stores and views -/

/-- Two reservations hold the same seat of the same flight. -/
def sameSeat (a b : Reservation) : Prop :=
  a.flight.flightNumber = b.flight.flightNumber ∧ a.seatNumber = b.seatNumber

instance (a b : Reservation) : Decidable (sameSeat a b) := by
  unfold sameSeat; exact inferInstance

/-- No two reservations of the list hold the same seat of the same flight. -/
def SeatExclusive (l : List Reservation) : Prop :=
  l.Pairwise (fun a b => ¬ sameSeat a b)

/-- No two reservations of the list carry the same reservation ID. -/
def UniqueIDs (l : List Reservation) : Prop :=
  l.Pairwise (fun a b => a.reservationID ≠ b.reservationID)

/-- No two reservations of the list carry both the same passenger name and the same
reservation ID. -/
def UniqueIDsPerPassenger (l : List Reservation) : Prop :=
  l.Pairwise (fun a b => ¬ (a.passengerName = b.passengerName ∧
    a.reservationID = b.reservationID))

/-- The object holds every key once (as every JSON object does). -/
def Store.KeysDistinct (s : Store) : Prop := s.keys.Nodup

/-- Every record is filed under the key equal to its passenger name. -/
def Store.FiledByName (s : Store) : Prop :=
  ∀ p ∈ s, ∀ e ∈ p.2, e.passengerName = p.1

/-- No key holds two records with the same reservation ID. -/
def Store.UniqueIDsPerKey (s : Store) : Prop :=
  ∀ p ∈ s, UniqueIDs p.2

/-- The reservation a booking submits to the store once the flight, seat-bound and availability
checks have passed: it carries the generated ID, the actor's name, a flight with the requested
number and the requested seat label. -/
def Submitted (username : String) (inp : BookInput) (r : Reservation) : Prop :=
  r.reservationID = generateRandomReservationID inp.rand1 inp.rand2 ∧
  r.passengerName = username ∧
  r.flight.flightNumber = inp.flightNumber ∧
  r.seatNumber = inp.seat

/-- The outcomes of `bookFlight` that end the call before anything is created. -/
def BookOutcome.Rejected (o : BookOutcome) : Prop :=
  o = .cancelled ∨ o = .flightNotFound ∨ o = .stoiThrew ∨ o = .invalidSeat ∨ o = .seatTaken

/-- The values a C++ `int` can hold. -/
def IsInt32 (n : Int) : Prop := -(2 ^ 31) ≤ n ∧ n < 2 ^ 31

instance (n : Int) : Decidable (IsInt32 n) := by
  unfold IsInt32; exact inferInstance

/-- Well-formedness of a reservation file: every key once, every record under the key equal to
its passenger name, no key with two records of the same reservation ID. -/
def Store.WellFormed (s : Store) : Prop :=
  s.KeysDistinct ∧ s.FiledByName ∧ s.UniqueIDsPerKey

/-! ## Sample data -/

/-- Flight AA100 with 150 seats. -/
def flightAA100 : Flight :=
  ⟨"AA100", "Cairo", "Dubai", "2025-06-01 10:00", "2025-06-01 14:00", "A320", 150,
   "Scheduled", "300"⟩

/-- A one-flight directory. -/
def sampleFlights : List Flight := [flightAA100]

/-- Nothing stored yet, card file present and empty. -/
def emptyWorld : World := ⟨[], [], some []⟩

/-- Cash is chosen at the payment prompt. -/
def payCash : PaymentInput := ⟨1, "", "", "", "", ""⟩

/-- Seat 12 of AA100, cash, with the given `rand()` results. -/
def seat12 (rand1 rand2 : Nat) : BookInput := ⟨"AA100", "12", rand1, rand2, payCash⟩

/-- The file whose loaded reservations the seat check of the booking scans: the general file
in `Passenger::bookFlight`, the agent file in `BookingAgent::bookFlight`. -/
def Booking.checkedStore (w : World) : Booking → Store
  | .passenger _ _ _ => w.general
  | .agent _ _ _ => w.agent

instance (s : Store) : Decidable s.KeysDistinct := by
  unfold Store.KeysDistinct; exact inferInstance

instance (s : Store) : Decidable s.FiledByName := by
  unfold Store.FiledByName; exact inferInstance

instance (l : List Reservation) : Decidable (SeatExclusive l) := by
  unfold SeatExclusive; exact inferInstance

instance (l : List Reservation) : Decidable (UniqueIDs l) := by
  unfold UniqueIDs; exact inferInstance

instance (l : List Reservation) : Decidable (UniqueIDsPerPassenger l) := by
  unfold UniqueIDsPerPassenger; exact inferInstance

/-- A cash-held reservation of seat 12 on AA100 with ID A100, owned by alice. -/
def heldA100 : Reservation := ⟨"A100", "alice", flightAA100, "12", "Cash", "", false⟩

/-- A general file holding only the held reservation of alice. -/
def aliceStore : Store := [("alice", [heldA100])]

/-- The world in which only the held reservation of alice is stored. -/
def aliceWorld : World := ⟨aliceStore, [], some []⟩

/-- Seat 13 of AA100, cash, with the given `rand()` results. -/
def seat13 (rand1 rand2 : Nat) : BookInput := ⟨"AA100", "13", rand1, rand2, payCash⟩

/-! ## Booking-agent check-in, cancellation, cash confirmation (`BookingAgent.cpp`) -/

namespace BookingAgent

/-- Source function `BookingAgent::checkIn` with `resID` the ID typed in. -/
def checkIn (self : BookingAgent) (resID : String) : CheckInOutcome :=
  match self.reservations.find? (fun res => decide (res.reservationID = resID)) with
  | some res =>
    if res.isPaid then .success res.printBoardingPass else .paymentPending
  | none => .invalidReservationID

/-- Source function `BookingAgent::cancelReservation` with `resID` the ID typed in. -/
def cancelReservation (self : BookingAgent) (resID : String) (w : World) :
    Reservation.RemoveOutcome × BookingAgent × World :=
  let removal := Reservation.removeReservation w.general resID
  (removal.1,
   { self with reservations := Reservation.loadReservations removal.2 },
   { w with general := removal.2 })

/-- Source function `BookingAgent::confirmCashPayment` with `resID` the ID typed in: the
updated view is passed to both save functions. -/
def confirmCashPayment (self : BookingAgent) (resID : String) (w : World) :
    ConfirmOutcome × BookingAgent × World :=
  match confirmScan resID self.reservations with
  | some (view, res) =>
    (.confirmed res.printBoardingPass,
     { self with reservations := view },
     { w with general := Reservation.saveReservations w.general view,
              agent := Reservation.saveBookingAgentReservations w.agent view })
  | none => (.notFoundOrPaid, self, w)

end BookingAgent

/-! ## Sessions: parts of a booking request, passenger sessions -/

/-- Who makes the booking request. -/
def Booking.username : Booking → String
  | .passenger username _ _ => username
  | .agent username _ _ => username

/-- The flight directory of the booking request. -/
def Booking.flightsVec : Booking → List Flight
  | .passenger _ flightsVec _ => flightsVec
  | .agent _ flightsVec _ => flightsVec

/-- The inputs of the booking request. -/
def Booking.input : Booking → BookInput
  | .passenger _ _ inp => inp
  | .agent _ _ inp => inp

/-- Whether the request goes through the booking-agent flow. -/
def Booking.isAgent : Booking → Bool
  | .passenger _ _ _ => false
  | .agent _ _ _ => true

/-- How the booking request of a freshly logged-in actor ends. -/
def Booking.outcome (w : World) : Booking → BookOutcome
  | .passenger username flightsVec inp =>
    ((Passenger.login username w).bookFlight flightsVec inp w).1
  | .agent username flightsVec inp =>
    ((BookingAgent.login username w).bookFlight flightsVec inp w).1

/-- One choice of the passenger menu that touches reservations, with what the user types. -/
inductive PassengerOp where
  | book (flightsVec : List Flight) (inp : BookInput)
  | confirm (resID : String)
  | cancel (resID : String)
  | checkIn (resID : String)
deriving DecidableEq, Repr

/-- The passenger object and the persistent state after one menu choice. -/
def PassengerOp.run (s : Passenger × World) : PassengerOp → Passenger × World
  | .book flightsVec inp => (s.1.bookFlight flightsVec inp s.2).2
  | .confirm resID => (s.1.confirmCashPayment resID s.2).2
  | .cancel resID => (s.1.cancelReservation resID s.2).2
  | .checkIn _ => s

/-- The passenger object and the persistent state after a sequence of menu choices. -/
def runSession (s : Passenger × World) (ops : List PassengerOp) : Passenger × World :=
  ops.foldl PassengerOp.run s

/-- The paid flags of the reservations of the view that carry the given ID, in view order. -/
def Passenger.paidFlags (self : Passenger) (resID : String) : List Bool :=
  (self.reservations.filter (fun res => decide (res.reservationID = resID))).map
    (fun res => res.isPaid)

/-! ## More sample data -/

/-- A reservation of seat 14 on AA100 held by alice. -/
def heldSeat14 : Reservation := ⟨"C300", "alice", flightAA100, "14", "Cash", "", false⟩

/-- The world in which only that reservation of seat 14 is stored. -/
def seat14World : World := ⟨[("alice", [heldSeat14])], [], some []⟩

/-- A booking input for AA100 with the given seat label, cash, `rand()` results 1 and 100. -/
def seatInput (seat : String) : BookInput := ⟨"AA100", seat, 1, 100, payCash⟩

/-- A booking input with the given flight number, seat 12, cash. -/
def flightInput (flightNumber : String) : BookInput := ⟨flightNumber, "12", 1, 100, payCash⟩

/-! ## Console reads of the card payment (`Payment.cpp`) -/

/-- The inputs `Payment::processCardPayment` can read from the console. -/
inductive CardPrompt where
  /-- "Enter saved card CVV: " -/
  | savedCvv
  /-- "Enter card number: " -/
  | cardNumber
  /-- "Enter expiration date (MM/YY): " -/
  | expDate
  /-- "Enter cardholder name: " -/
  | cardHolder
  /-- "Enter CVV: " -/
  | cvv
deriving DecidableEq, Repr

/-- The console reads `Payment::processCardPayment` performs, in order: none when the card
file cannot be opened; the saved-card CVV when a card is saved for the passenger; the four
inputs of a new card unless the saved CVV matched (the function then returns at once). -/
def Payment.cardPaymentReads (reservation : Reservation) (inp : PaymentInput)
    (cards : Option CardStore) : List CardPrompt :=
  match cards with
  | none => []
  | some allCards =>
    match allCards.find reservation.passengerName with
    | some card =>
      if card.cvv = inp.savedCvv then [.savedCvv]
      else [.savedCvv, .cardNumber, .expDate, .cardHolder, .cvv]
    | none => [.cardNumber, .expDate, .cardHolder, .cvv]

/-! ## Sample data for check-in, payment and repeated IDs -/

/-- A paid reservation of seat 20 on AA100 owned by bob. -/
def paidB200 : Reservation := ⟨"B200", "bob", flightAA100, "20", "4111", "123", true⟩

/-- The world in which only the paid reservation of bob is stored. -/
def bobWorld : World := ⟨[("bob", [paidB200])], [], some []⟩

/-- An unpaid reservation of alice whose payment method was never set. -/
def unpaidNoMethod : Reservation := ⟨"D400", "alice", flightAA100, "30", "", "", false⟩

/-- The card saved for alice. -/
def aliceCard : Card := ⟨"4111", "123", "01/30", "Alice A"⟩

/-- A card file holding the card of alice and a card of bob. -/
def sampleCards : CardStore := [("alice", aliceCard), ("bob", ⟨"5555", "999", "02/31", "Bob B"⟩)]

/-- Card is chosen; the given text is typed at the saved-CVV prompt; a new card 4242 with CVV
777 is typed when asked. -/
def payCard (savedCvv : String) : PaymentInput := ⟨2, savedCvv, "4242", "03/32", "New Name", "777"⟩

/-- A payment choice that is neither 1 nor 2. -/
def payInvalid : PaymentInput := ⟨7, "", "", "", "", ""⟩

/-- The reservation a booking of alice creates before payment, for seat 30 of AA100. -/
def createdD400 : Reservation := ⟨"D400", "alice", flightAA100, "30", "", "", false⟩

/-- A world in which the agent file holds a reservation of carol that the general file lacks,
and the general file holds the reservation of alice. -/
def carolWorld : World :=
  ⟨aliceStore, [("carol", [⟨"C300", "carol", flightAA100, "50", "Cash", "", false⟩])], some []⟩

/-- A reservation of seat 40 on AA100 held by bob. -/
def bobHeld : Reservation := ⟨"B200", "bob", flightAA100, "40", "Cash", "", false⟩

/-- A reservation of seat 50 on AA100 held by carol. -/
def carolHeld : Reservation := ⟨"C300", "carol", flightAA100, "50", "Cash", "", false⟩

/-- A world in which both files hold the reservation of bob and only the agent file holds the
reservation of carol. -/
def staleWorld : World :=
  ⟨[("bob", [bobHeld])], [("bob", [bobHeld]), ("carol", [carolHeld])], some []⟩

namespace Store

theorem entries_eq_nil_of_not_hasKey (s : Store) (key : String) (h : s.hasKey key = false) :
    s.entries key = [] := by
  induction s with
  | nil => rfl
  | cons p rest ih =>
    obtain ⟨k, a⟩ := p
    simp only [hasKey, List.any_cons, Bool.or_eq_false_iff, decide_eq_false_iff_not] at h
    have hr : hasKey rest key = false := h.2
    simp [entries, h.1, ih hr]

theorem entries_appendAt (s : Store) (key : String) (e : Reservation) (k : String)
    (h : s.hasKey key = true) :
    (s.appendAt key e).entries k = if k = key then s.entries key ++ [e] else s.entries k := by
  induction s with
  | nil => simp [hasKey] at h
  | cons p rest ih =>
    obtain ⟨k0, a⟩ := p
    by_cases hk : k0 = key
    · subst hk
      by_cases hkk : k0 = k
      · subst hkk; simp [appendAt, entries]
      · have hkk2 : ¬ k = k0 := fun h => hkk h.symm
        simp [appendAt, entries, hkk, hkk2]
    · have hr : hasKey rest key = true := by
        simpa [hasKey, hk] using h
      by_cases hkk : k0 = k
      · subst hkk
        have : ¬ k0 = key := hk
        simp [appendAt, entries, hk]
      · simp [appendAt, entries, hk, hkk, ih hr]

theorem entries_insertKey (s : Store) (key : String) (arr : List Reservation) (k : String)
    (h : s.hasKey key = false) :
    (s.insertKey key arr).entries k = if k = key then arr else s.entries k := by
  induction s with
  | nil =>
    by_cases hk : key = k
    · subst hk; simp [insertKey, entries]
    · have hk2 : ¬ k = key := fun h => hk h.symm
      simp [insertKey, entries, hk, hk2]
  | cons p rest ih =>
    obtain ⟨k0, a⟩ := p
    simp only [hasKey, List.any_cons, Bool.or_eq_false_iff, decide_eq_false_iff_not] at h
    have hr : hasKey rest key = false := h.2
    have h0 : ¬ k0 = key := h.1
    by_cases hlt : keyLess key k0 = true
    · by_cases hk : key = k
      · subst hk; simp [insertKey, entries, hlt]
      · have hk2 : ¬ k = key := fun h => hk h.symm
        simp [insertKey, entries, hlt, hk, hk2]
    · by_cases hk : k0 = k
      · subst hk
        simp [insertKey, entries, hlt, h0]
      · simp [insertKey, entries, hlt, hk, ih hr]

theorem entries_pushBack (s : Store) (key : String) (e : Reservation) (k : String) :
    (s.pushBack key e).entries k = if k = key then s.entries key ++ [e] else s.entries k := by
  unfold pushBack
  by_cases h : s.hasKey key = true
  · simp [h, entries_appendAt]
  · have h2 : s.hasKey key = false := by simpa using h
    simp [h2, entries_insertKey, entries_eq_nil_of_not_hasKey]

theorem mem_appendAt (s : Store) (key : String) (e : Reservation) (p : String × List Reservation)
    (hp : p ∈ s.appendAt key e) :
    p ∈ s ∨ p = (key, s.entries key ++ [e]) := by
  induction s with
  | nil => simp [appendAt] at hp
  | cons q rest ih =>
    obtain ⟨k0, a⟩ := q
    by_cases hk : k0 = key
    · subst hk
      simp only [appendAt, if_true, List.mem_cons] at hp
      rcases hp with hp | hp
      · right; simp [hp, entries]
      · left; exact List.mem_cons_of_mem _ hp
    · simp only [appendAt, hk, if_false, List.mem_cons] at hp
      rcases hp with hp | hp
      · left; simp [hp]
      · rcases ih hp with h | h
        · left; exact List.mem_cons_of_mem _ h
        · right; simp [h, entries, hk]

theorem mem_insertKey (s : Store) (key : String) (arr : List Reservation)
    (p : String × List Reservation) :
    p ∈ s.insertKey key arr ↔ p = (key, arr) ∨ p ∈ s := by
  induction s with
  | nil => simp [insertKey]
  | cons q rest ih =>
    obtain ⟨k0, a⟩ := q
    by_cases hlt : keyLess key k0 = true
    · simp [insertKey, hlt]
    · simp only [insertKey, hlt, List.mem_cons, ih]
      simp only [Bool.false_eq_true, if_false, List.mem_cons, ih]
      tauto

theorem mem_pushBack (s : Store) (key : String) (e : Reservation)
    (p : String × List Reservation) (hp : p ∈ s.pushBack key e) :
    p ∈ s ∨ p = (key, s.entries key ++ [e]) := by
  unfold pushBack at hp
  by_cases h : s.hasKey key = true
  · rw [if_pos h] at hp
    exact mem_appendAt s key e p hp
  · rw [if_neg h] at hp
    have h2 : s.hasKey key = false := by simpa using h
    rcases (mem_insertKey s key [e] p).1 hp with hp | hp
    · right; simp [hp, entries_eq_nil_of_not_hasKey s key h2]
    · left; exact hp

theorem keys_appendAt (s : Store) (key : String) (e : Reservation) :
    (s.appendAt key e).keys = s.keys := by
  induction s with
  | nil => rfl
  | cons q rest ih =>
    obtain ⟨k0, a⟩ := q
    by_cases hk : k0 = key
    · simp [appendAt, hk, keys]
    · have := ih
      simp only [keys] at this
      simp [appendAt, hk, keys, this]

theorem keys_insertKey_perm (s : Store) (key : String) (arr : List Reservation) :
    (s.insertKey key arr).keys.Perm (key :: s.keys) := by
  induction s with
  | nil => simp [insertKey, keys]
  | cons q rest ih =>
    obtain ⟨k0, a⟩ := q
    by_cases hlt : keyLess key k0 = true
    · simp [insertKey, hlt, keys]
    · have h1 : (insertKey ((k0, a) :: rest) key arr).keys = k0 :: (insertKey rest key arr).keys := by
        simp [insertKey, hlt, keys]
      rw [h1]
      have h2 : keys ((k0, a) :: rest) = k0 :: keys rest := rfl
      rw [h2]
      exact (List.Perm.cons k0 ih).trans (List.Perm.swap key k0 _)

theorem hasKey_iff_mem_keys (s : Store) (key : String) :
    s.hasKey key = true ↔ key ∈ s.keys := by
  simp [hasKey, keys]

theorem keysDistinct_pushBack (s : Store) (key : String) (e : Reservation)
    (h : s.KeysDistinct) : (s.pushBack key e).KeysDistinct := by
  unfold KeysDistinct pushBack at *
  by_cases hk : s.hasKey key = true
  · rw [if_pos hk, keys_appendAt]; exact h
  · rw [if_neg hk]
    have hnot : key ∉ s.keys := fun hm => hk ((hasKey_iff_mem_keys s key).2 hm)
    exact (keys_insertKey_perm s key [e]).nodup_iff.2 (List.nodup_cons.2 ⟨hnot, h⟩)

theorem entries_of_mem (s : Store) (h : s.KeysDistinct) (p : String × List Reservation)
    (hp : p ∈ s) : s.entries p.1 = p.2 := by
  induction s with
  | nil => simp at hp
  | cons q rest ih =>
    obtain ⟨k0, a⟩ := q
    have hnd : k0 ∉ keys rest ∧ (keys rest).Nodup := by
      simpa [KeysDistinct, keys] using h
    rcases List.mem_cons.1 hp with hp | hp
    · subst hp; simp [entries]
    · have hne : ¬ k0 = p.1 := by
        intro heq
        apply hnd.1
        rw [heq]
        exact List.mem_map_of_mem Prod.fst hp
      simp only [entries, hne, if_false]
      exact ih hnd.2 hp

theorem load_appendAt_perm (s : Store) (key : String) (e : Reservation)
    (h : s.hasKey key = true) :
    (Reservation.loadReservations (s.appendAt key e)).Perm (e :: Reservation.loadReservations s) := by
  induction s with
  | nil => simp [hasKey] at h
  | cons q rest ih =>
    obtain ⟨k0, a⟩ := q
    by_cases hk : k0 = key
    · simp only [appendAt, hk, if_true, Reservation.loadReservations, List.flatMap_cons,
        List.append_assoc]
      simp
    · have hr : hasKey rest key = true := by simpa [hasKey, hk] using h
      have ih2 := ih hr
      simp only [Reservation.loadReservations] at ih2
      simp only [appendAt, hk, if_false, Reservation.loadReservations, List.flatMap_cons]
      exact (List.Perm.append_left a ih2).trans List.perm_middle

theorem load_insertKey_perm (s : Store) (key : String) (arr : List Reservation) :
    (Reservation.loadReservations (s.insertKey key arr)).Perm
      (arr ++ Reservation.loadReservations s) := by
  induction s with
  | nil => simp [insertKey, Reservation.loadReservations]
  | cons q rest ih =>
    obtain ⟨k0, a⟩ := q
    by_cases hlt : keyLess key k0 = true
    · simp [insertKey, hlt, Reservation.loadReservations]
    · simp only [Reservation.loadReservations] at ih
      simp only [insertKey, hlt, Bool.false_eq_true, if_false, Reservation.loadReservations,
        List.flatMap_cons]
      refine (List.Perm.append_left a ih).trans ?_
      rw [← List.append_assoc, ← List.append_assoc]
      exact List.Perm.append_right _ List.perm_append_comm

theorem load_pushBack_perm (s : Store) (key : String) (e : Reservation) :
    (Reservation.loadReservations (s.pushBack key e)).Perm (e :: Reservation.loadReservations s) := by
  unfold pushBack
  by_cases h : s.hasKey key = true
  · rw [if_pos h]; exact load_appendAt_perm s key e h
  · rw [if_neg h]; simpa using load_insertKey_perm s key [e]

theorem mem_load_iff (s : Store) (e : Reservation) :
    e ∈ Reservation.loadReservations s ↔ ∃ p ∈ s, e ∈ p.2 := by
  simp [Reservation.loadReservations, List.mem_flatMap]

theorem mem_entries_of_mem_load (s : Store) (hk : s.KeysDistinct) (hf : s.FiledByName)
    (e : Reservation) (he : e ∈ Reservation.loadReservations s) :
    e ∈ s.entries e.passengerName := by
  obtain ⟨p, hp, hep⟩ := (mem_load_iff s e).1 he
  have h1 : e.passengerName = p.1 := hf p hp e hep
  rw [h1, entries_of_mem s hk p hp]
  exact hep

theorem mem_load_of_mem_entries (s : Store) (key : String) (e : Reservation)
    (he : e ∈ s.entries key) : e ∈ Reservation.loadReservations s := by
  induction s with
  | nil => simp [entries] at he
  | cons q rest ih =>
    obtain ⟨k0, a⟩ := q
    by_cases hk : k0 = key
    · simp only [entries, hk, if_true] at he
      simp [Reservation.loadReservations, he]
    · simp only [entries, hk, if_false] at he
      have := ih he
      simp only [Reservation.loadReservations] at this
      simp [Reservation.loadReservations, this]

end Store

namespace Reservation

theorem saveStep_of_found (s : Store) (r : Reservation) (h : foundIn s r = true) :
    saveStep s r = s := by
  unfold foundIn at h
  simp [saveStep, h]

theorem saveStep_of_not_found (s : Store) (r : Reservation) (h : foundIn s r = false) :
    saveStep s r = s.pushBack r.passengerName r := by
  unfold foundIn at h
  simp [saveStep, h]

theorem foundIn_of_mem_entries (s : Store) (r e : Reservation)
    (he : e ∈ s.entries r.passengerName) (hid : e.reservationID = r.reservationID) :
    foundIn s r = true := by
  unfold foundIn
  exact List.any_eq_true.2 ⟨e, he, by simp [hid]⟩

theorem saveStep_of_loaded (s : Store) (hk : s.KeysDistinct) (hf : s.FiledByName)
    (e : Reservation) (he : e ∈ loadReservations s) : saveStep s e = s :=
  saveStep_of_found s e
    (foundIn_of_mem_entries s e e (Store.mem_entries_of_mem_load s hk hf e he) rfl)

theorem saveReservations_of_loaded (s : Store) (hk : s.KeysDistinct) (hf : s.FiledByName)
    (l : List Reservation) (hl : ∀ e ∈ l, e ∈ loadReservations s) :
    saveReservations s l = s := by
  induction l with
  | nil => rfl
  | cons e rest ih =>
    have h1 : saveStep s e = s := saveStep_of_loaded s hk hf e (hl e (List.mem_cons_self _ _))
    simp only [saveReservations, List.foldl_cons, h1]
    exact ih (fun x hx => hl x (List.mem_cons_of_mem _ hx))

theorem saveReservations_append (s : Store) (l1 l2 : List Reservation) :
    saveReservations s (l1 ++ l2) = saveReservations (saveReservations s l1) l2 := by
  simp [saveReservations, List.foldl_append]

theorem saveReservations_loaded_append (s : Store) (hk : s.KeysDistinct) (hf : s.FiledByName)
    (r : Reservation) :
    saveReservations s (loadReservations s ++ [r]) = saveStep s r := by
  rw [saveReservations_append, saveReservations_of_loaded s hk hf _ (fun _ h => h)]
  rfl

theorem load_saveStep (s : Store) (r : Reservation) :
    (foundIn s r = true ∧ saveStep s r = s) ∨
    (foundIn s r = false ∧ (loadReservations (saveStep s r)).Perm (r :: loadReservations s)) := by
  by_cases h : foundIn s r = true
  · exact Or.inl ⟨h, saveStep_of_found s r h⟩
  · have h2 : foundIn s r = false := by simpa using h
    refine Or.inr ⟨h2, ?_⟩
    rw [saveStep_of_not_found s r h2]
    exact Store.load_pushBack_perm s _ r

end Reservation

/-! ## Lemmas on the booking flows -/

theorem selectFlight_aux (flightsVec : List Flight) (flightNumber : String) (init : Option Flight)
    (hinit : ∀ f, init = some f → f.flightNumber = flightNumber) (f : Flight)
    (h : flightsVec.foldl
      (fun selected fl => if fl.flightNumber = flightNumber then some fl else selected) init
        = some f) :
    f.flightNumber = flightNumber := by
  induction flightsVec generalizing init with
  | nil => exact hinit f h
  | cons fl rest ih =>
    simp only [List.foldl_cons] at h
    refine ih _ ?_ h
    intro g hg
    by_cases hfl : fl.flightNumber = flightNumber
    · simp only [hfl, if_true, Option.some.injEq] at hg
      rw [← hg]; exact hfl
    · simp only [hfl, if_false] at hg
      exact hinit g hg

theorem selectFlight_flightNumber (flightsVec : List Flight) (flightNumber : String) (f : Flight)
    (h : selectFlight flightsVec flightNumber = some f) : f.flightNumber = flightNumber :=
  selectFlight_aux flightsVec flightNumber none (fun _ hf => by simp at hf) f h

theorem occupied_eq_false_iff (loaded : List Reservation) (flightNumber seat : String) :
    occupied loaded flightNumber seat = false ↔
      ∀ e ∈ loaded, ¬ (e.flight.flightNumber = flightNumber ∧ e.seatNumber = seat) := by
  simp [occupied]

theorem occupied_eq_true_iff (loaded : List Reservation) (flightNumber seat : String) :
    occupied loaded flightNumber seat = true ↔
      ∃ e ∈ loaded, e.flight.flightNumber = flightNumber ∧ e.seatNumber = seat := by
  simp [occupied]

namespace Payment

theorem processCardPayment_frame (r : Reservation) (inp : PaymentInput)
    (cards : Option CardStore) :
    (processCardPayment r inp cards).2.1.reservationID = r.reservationID ∧
    (processCardPayment r inp cards).2.1.passengerName = r.passengerName ∧
    (processCardPayment r inp cards).2.1.flight = r.flight ∧
    (processCardPayment r inp cards).2.1.seatNumber = r.seatNumber := by
  unfold processCardPayment
  cases cards with
  | none => simp
  | some allCards =>
    cases hfind : allCards.find r.passengerName with
    | none => simp [hfind]
    | some card =>
      by_cases hc : card.cvv = inp.savedCvv <;> simp [hfind, hc]

theorem processPayment_frame (r : Reservation) (inp : PaymentInput)
    (cards : Option CardStore) :
    (processPayment r inp cards).2.1.reservationID = r.reservationID ∧
    (processPayment r inp cards).2.1.passengerName = r.passengerName ∧
    (processPayment r inp cards).2.1.flight = r.flight ∧
    (processPayment r inp cards).2.1.seatNumber = r.seatNumber := by
  unfold processPayment
  by_cases h1 : inp.method = 1
  · simp [h1]
  · by_cases h2 : inp.method = 2
    · simp only [h1, h2, if_true, if_false]
      exact processCardPayment_frame r inp cards
    · simp [h1, h2]

theorem processPayment_paid_or_unpaid (r : Reservation) (inp : PaymentInput)
    (cards : Option CardStore) (hr : r.isPaid = false) :
    (processPayment r inp cards).1 = true ∨ (processPayment r inp cards).2.1.isPaid = false := by
  unfold processPayment
  by_cases h1 : inp.method = 1
  · simp [h1]
  · by_cases h2 : inp.method = 2
    · simp only [h1, h2, if_true, if_false]
      unfold processCardPayment
      cases cards with
      | none => simp [hr]
      | some allCards =>
        cases hfind : allCards.find r.passengerName with
        | none => simp [hfind]
        | some card =>
          by_cases hc : card.cvv = inp.savedCvv <;> simp [hfind, hc]
    · simp [h1, h2, hr]

end Payment

theorem passenger_bookFlight_cases (self : Passenger) (flightsVec : List Flight)
    (inp : BookInput) (w : World) :
    ((self.bookFlight flightsVec inp w).1.Rejected ∧
      (self.bookFlight flightsVec inp w).2 = (self, w)) ∨
    ∃ r selected n, inp.flightNumber ≠ "0" ∧
      selectFlight flightsVec inp.flightNumber = some selected ∧
      stoi inp.seat = some n ∧ ¬ n > selected.totalSeats ∧
      occupied (Reservation.loadReservations w.general) inp.flightNumber inp.seat = false ∧
      Submitted self.username inp r ∧
      ((self.bookFlight flightsVec inp w).1 = .successful r ∨
        (self.bookFlight flightsVec inp w).1 = .onHold r) ∧
      (self.bookFlight flightsVec inp w).2.2.general =
        Reservation.saveReservations w.general (Reservation.loadReservations w.general ++ [r]) ∧
      (self.bookFlight flightsVec inp w).2.2.agent = w.agent := by
  unfold Passenger.bookFlight BookOutcome.Rejected
  by_cases h0 : inp.flightNumber = "0"
  · simp [h0]
  · cases hsel : selectFlight flightsVec inp.flightNumber with
    | none => simp [h0]
    | some selected =>
      cases hst : stoi inp.seat with
      | none => simp [h0]
      | some n =>
        by_cases hn : n > selected.totalSeats
        · simp [h0, hn]
        · by_cases hocc : occupied (Reservation.loadReservations w.general) inp.flightNumber
              inp.seat = true
          · simp [h0, hn, hocc]
          · have hocc2 : occupied (Reservation.loadReservations w.general) inp.flightNumber
                inp.seat = false := by simpa using hocc
            right
            have hfr := Payment.processPayment_frame
              ⟨generateRandomReservationID inp.rand1 inp.rand2, self.username, selected,
                inp.seat, "", "", false⟩ inp.pay w.cards
            have hfn := selectFlight_flightNumber flightsVec inp.flightNumber selected hsel
            have hpu := Payment.processPayment_paid_or_unpaid
              ⟨generateRandomReservationID inp.rand1 inp.rand2, self.username, selected,
                inp.seat, "", "", false⟩ inp.pay w.cards rfl
            refine ⟨(Payment.processPayment
              ⟨generateRandomReservationID inp.rand1 inp.rand2, self.username, selected,
                inp.seat, "", "", false⟩ inp.pay w.cards).2.1, selected, n, h0, rfl, rfl, hn,
                hocc2, ?_, ?_, ?_, ?_⟩
            · exact ⟨hfr.1, hfr.2.1, by rw [hfr.2.2.1]; exact hfn, hfr.2.2.2⟩
            · simp only [h0, if_false, hn, hocc2, Bool.false_eq_true]
              split_ifs <;> simp_all
            · simp only [h0, if_false, hn, hocc2, Bool.false_eq_true]
              split_ifs <;> simp_all
            · simp only [h0, if_false, hn, hocc2, Bool.false_eq_true]
              split_ifs <;> simp_all

theorem agent_bookFlight_cases (self : BookingAgent) (flightsVec : List Flight)
    (inp : BookInput) (w : World) :
    ((self.bookFlight flightsVec inp w).1.Rejected ∧
      (self.bookFlight flightsVec inp w).2 = (self, w)) ∨
    ∃ r selected n, inp.flightNumber ≠ "0" ∧
      selectFlight flightsVec inp.flightNumber = some selected ∧
      stoi inp.seat = some n ∧ ¬ n > selected.totalSeats ∧
      occupied (Reservation.loadBookingAgentReservations w.agent) inp.flightNumber inp.seat
        = false ∧
      Submitted self.username inp r ∧
      ((self.bookFlight flightsVec inp w).1 = .successful r ∨
        (self.bookFlight flightsVec inp w).1 = .onHold r) ∧
      (self.bookFlight flightsVec inp w).2.2.general =
        Reservation.saveReservations w.general
          (Reservation.loadBookingAgentReservations w.agent ++ [r]) ∧
      (self.bookFlight flightsVec inp w).2.2.agent =
        Reservation.saveBookingAgentReservations w.agent
          (Reservation.loadBookingAgentReservations w.agent ++ [r]) := by
  unfold BookingAgent.bookFlight BookOutcome.Rejected
  by_cases h0 : inp.flightNumber = "0"
  · simp [h0]
  · cases hsel : selectFlight flightsVec inp.flightNumber with
    | none => simp [h0]
    | some selected =>
      cases hst : stoi inp.seat with
      | none => simp [h0]
      | some n =>
        by_cases hn : n > selected.totalSeats
        · simp [h0, hn]
        · by_cases hocc : occupied (Reservation.loadBookingAgentReservations w.agent)
              inp.flightNumber inp.seat = true
          · simp [h0, hn, hocc]
          · have hocc2 : occupied (Reservation.loadBookingAgentReservations w.agent)
                inp.flightNumber inp.seat = false := by simpa using hocc
            right
            have hfr := Payment.processPayment_frame
              ⟨generateRandomReservationID inp.rand1 inp.rand2, self.username, selected,
                inp.seat, "", "", false⟩ inp.pay w.cards
            have hfn := selectFlight_flightNumber flightsVec inp.flightNumber selected hsel
            have hpu := Payment.processPayment_paid_or_unpaid
              ⟨generateRandomReservationID inp.rand1 inp.rand2, self.username, selected,
                inp.seat, "", "", false⟩ inp.pay w.cards rfl
            refine ⟨(Payment.processPayment
              ⟨generateRandomReservationID inp.rand1 inp.rand2, self.username, selected,
                inp.seat, "", "", false⟩ inp.pay w.cards).2.1, selected, n, h0, rfl, rfl, hn,
                hocc2, ?_, ?_, ?_, ?_⟩
            · exact ⟨hfr.1, hfr.2.1, by rw [hfr.2.2.1]; exact hfn, hfr.2.2.2⟩
            · simp only [h0, if_false, hn, hocc2, Bool.false_eq_true]
              split_ifs <;> simp_all
            · simp only [h0, if_false, hn, hocc2, Bool.false_eq_true]
              split_ifs <;> simp_all
            · simp only [h0, if_false, hn, hocc2, Bool.false_eq_true]
              split_ifs <;> simp_all

/-! ## Seat exclusivity -/

theorem sameSeat_symm {a b : Reservation} (h : ¬ sameSeat a b) : ¬ sameSeat b a :=
  fun hba => h ⟨hba.1.symm, hba.2.symm⟩

theorem seatExclusive_saveStep (s : Store) (r : Reservation)
    (hs : SeatExclusive (Reservation.loadReservations s))
    (hr : ∀ e ∈ Reservation.loadReservations s, ¬ sameSeat r e) :
    SeatExclusive (Reservation.loadReservations (Reservation.saveStep s r)) := by
  rcases Reservation.load_saveStep s r with ⟨_, h⟩ | ⟨_, h⟩
  · rw [h]; exact hs
  · unfold SeatExclusive at *
    exact (h.pairwise_iff (fun hxy => sameSeat_symm hxy)).2 (List.pairwise_cons.2 ⟨hr, hs⟩)

theorem seatExclusive_after_submit (s : Store) (hk : s.KeysDistinct) (hf : s.FiledByName)
    (hs : SeatExclusive (Reservation.loadReservations s)) (username : String) (inp : BookInput)
    (r : Reservation) (hsub : Submitted username inp r)
    (hocc : occupied (Reservation.loadReservations s) inp.flightNumber inp.seat = false) :
    SeatExclusive (Reservation.loadReservations
      (Reservation.saveReservations s (Reservation.loadReservations s ++ [r]))) := by
  rw [Reservation.saveReservations_loaded_append s hk hf r]
  apply seatExclusive_saveStep s r hs
  intro e he hsame
  have := (occupied_eq_false_iff _ _ _).1 hocc e he
  apply this
  obtain ⟨_, _, hfn, hseat⟩ := hsub
  exact ⟨hsame.1.symm.trans hfn, hsame.2.symm.trans hseat⟩

/-- C1 (the code breaks the claim): a passenger books seat 12 of AA100, then a booking agent
books the same seat of the same flight. The agent flow scans only the agent file, finds the
seat free and writes the new reservation to the general file, which then holds two
reservations for flight AA100, seat 12. -/
theorem agent_booking_duplicates_seat_in_general_store :
    Reservation.loadReservations (runBookings emptyWorld
      [.passenger "alice" sampleFlights (seat12 0 0),
       .agent "bob" sampleFlights (seat12 1 100)]).general
      = [⟨"A100", "alice", flightAA100, "12", "Cash", "", false⟩,
         ⟨"B200", "bob", flightAA100, "12", "Cash", "", false⟩] ∧
    ¬ SeatExclusive (Reservation.loadReservations (runBookings emptyWorld
      [.passenger "alice" sampleFlights (seat12 0 0),
       .agent "bob" sampleFlights (seat12 1 100)]).general) := by
  decide

/-- C2: a booking preserves seat exclusivity of the file its seat check scans (the general file
for the passenger flow, the agent file for the booking-agent flow): if that file holds every
key once, files every record under its passenger name and holds at most one reservation per
flight number and seat label, the same holds of it after the booking, for all inputs and
outcomes. -/
theorem booking_preserves_seat_exclusivity (b : Booking) (w : World)
    (hk : (b.checkedStore w).KeysDistinct) (hf : (b.checkedStore w).FiledByName)
    (hs : SeatExclusive (Reservation.loadReservations (b.checkedStore w))) :
    SeatExclusive (Reservation.loadReservations (b.checkedStore (b.run w))) := by
  cases b with
  | passenger username flightsVec inp =>
    simp only [Booking.checkedStore, Booking.run] at *
    rcases passenger_bookFlight_cases (Passenger.login username w) flightsVec inp w with
      ⟨_, h⟩ | ⟨r, _, _, _, _, _, _, hocc, hsub, _, hg, _⟩
    · have : ((Passenger.login username w).bookFlight flightsVec inp w).2.2 = w := by rw [h]
      rw [this]; exact hs
    · rw [hg]
      exact seatExclusive_after_submit w.general hk hf hs _ inp r hsub hocc
  | agent username flightsVec inp =>
    simp only [Booking.checkedStore, Booking.run] at *
    rcases agent_bookFlight_cases (BookingAgent.login username w) flightsVec inp w with
      ⟨_, h⟩ | ⟨r, _, _, _, _, _, _, hocc, hsub, _, _, ha⟩
    · have : ((BookingAgent.login username w).bookFlight flightsVec inp w).2.2 = w := by rw [h]
      rw [this]; exact hs
    · rw [ha]
      exact seatExclusive_after_submit w.agent hk hf hs _ inp r hsub hocc

/-- Witness for C2: bob books seat 13 of AA100 while alice holds seat 12. -/
theorem booking_preserves_seat_exclusivity_witness :
    (Booking.checkedStore aliceWorld (.passenger "bob" sampleFlights (seat13 1 100))).KeysDistinct ∧
    (Booking.checkedStore aliceWorld (.passenger "bob" sampleFlights (seat13 1 100))).FiledByName ∧
    SeatExclusive (Reservation.loadReservations
      (Booking.checkedStore aliceWorld (.passenger "bob" sampleFlights (seat13 1 100)))) ∧
    SeatExclusive (Reservation.loadReservations
      (Booking.checkedStore
        (Booking.run aliceWorld (.passenger "bob" sampleFlights (seat13 1 100)))
        (.passenger "bob" sampleFlights (seat13 1 100)))) :=
  ⟨by decide, by decide, by decide,
   booking_preserves_seat_exclusivity (.passenger "bob" sampleFlights (seat13 1 100)) aliceWorld
     (by decide) (by decide) (by decide)⟩

/-- C3 (the code breaks the claim): cancelling the stored ID A100 reports the removal, but the
shortened list is merged into the unchanged file, so the file is written back as it was and
loading it still yields the reservation with ID A100. -/
theorem removeReservation_keeps_the_reservation :
    Reservation.removeReservation aliceStore "A100" = (.removed, aliceStore) ∧
    (Passenger.cancelReservation (Passenger.login "alice" aliceWorld) "A100" aliceWorld).2.2
      = aliceWorld ∧
    heldA100 ∈ Reservation.loadReservations
      (Reservation.removeReservation aliceStore "A100").2 := by
  decide

/-- C4 (the code breaks the claim): confirming the cash payment of the held reservation A100
marks it paid in the in-memory view only; the merge by ID drops the updated record, and the
general file, loaded again, still holds A100 with `isPaid = false`. -/
theorem confirmCashPayment_not_persisted :
    (Passenger.confirmCashPayment (Passenger.login "alice" aliceWorld) "A100" aliceWorld).1
      = .confirmed heldA100.printBoardingPass ∧
    (Passenger.confirmCashPayment (Passenger.login "alice" aliceWorld) "A100"
      aliceWorld).2.1.reservations = [{ heldA100 with isPaid := true }] ∧
    Reservation.loadReservations
      (Passenger.confirmCashPayment (Passenger.login "alice" aliceWorld) "A100"
        aliceWorld).2.2.general = [heldA100] ∧
    heldA100.isPaid = false := by
  decide

/-! ## Merge-by-ID save -/

namespace Reservation

theorem foundIn_eq_false_iff (s : Store) (r : Reservation) :
    foundIn s r = false ↔
      ∀ e ∈ s.entries r.passengerName, e.reservationID ≠ r.reservationID := by
  simp [foundIn]

theorem entries_saveStep (s : Store) (r : Reservation) (k : String) :
    (saveStep s r).entries k =
      if k = r.passengerName ∧
          ∀ e ∈ s.entries k, e.reservationID ≠ r.reservationID
      then s.entries k ++ [r] else s.entries k := by
  by_cases hf : foundIn s r = true
  · rw [saveStep_of_found s r hf]
    have : ¬ (k = r.passengerName ∧ ∀ e ∈ s.entries k, e.reservationID ≠ r.reservationID) := by
      rintro ⟨hk, hall⟩
      subst hk
      have := (foundIn_eq_false_iff s r).2 hall
      rw [this] at hf
      exact Bool.false_ne_true hf
    rw [if_neg this]
  · have hf2 : foundIn s r = false := by simpa using hf
    rw [saveStep_of_not_found s r hf2, Store.entries_pushBack]
    by_cases hk : k = r.passengerName
    · subst hk
      have := (foundIn_eq_false_iff s r).1 hf2
      simp only [true_and, if_true]
      rw [if_pos this]
    · simp [hk]

theorem entries_prefix_saveStep (s : Store) (r : Reservation) (k : String) :
    s.entries k <+: (saveStep s r).entries k := by
  rw [entries_saveStep]
  split_ifs
  · exact List.prefix_append _ _
  · exact List.prefix_refl _

theorem entries_prefix_saveReservations (s : Store) (l : List Reservation) (k : String) :
    s.entries k <+: (saveReservations s l).entries k := by
  induction l generalizing s with
  | nil => exact List.prefix_refl _
  | cons r rest ih =>
    simp only [saveReservations, List.foldl_cons]
    exact (entries_prefix_saveStep s r k).trans (ih (saveStep s r))

theorem foundIn_mono (s t : Store) (r : Reservation)
    (hp : s.entries r.passengerName <+: t.entries r.passengerName)
    (h : foundIn s r = true) : foundIn t r = true := by
  unfold foundIn at *
  obtain ⟨e, he, hid⟩ := List.any_eq_true.1 h
  exact List.any_eq_true.2 ⟨e, hp.subset he, hid⟩

theorem foundIn_saveStep_self (s : Store) (r : Reservation) :
    foundIn (saveStep s r) r = true := by
  by_cases hf : foundIn s r = true
  · rw [saveStep_of_found s r hf]; exact hf
  · have hf2 : foundIn s r = false := by simpa using hf
    apply foundIn_of_mem_entries (saveStep s r) r r _ rfl
    rw [entries_saveStep]
    have := (foundIn_eq_false_iff s r).1 hf2
    rw [if_pos ⟨rfl, this⟩]
    simp

theorem foundIn_saveReservations (s : Store) (l : List Reservation) (r : Reservation)
    (hr : r ∈ l) : foundIn (saveReservations s l) r = true := by
  induction l generalizing s with
  | nil => simp at hr
  | cons x rest ih =>
    simp only [saveReservations, List.foldl_cons]
    rcases List.mem_cons.1 hr with h | h
    · subst h
      exact foundIn_mono (saveStep s r) _ r
        (entries_prefix_saveReservations (saveStep s r) rest _) (foundIn_saveStep_self s r)
    · exact ih (saveStep s x) h

theorem saveReservations_of_found (s : Store) (l : List Reservation)
    (h : ∀ r ∈ l, foundIn s r = true) : saveReservations s l = s := by
  induction l with
  | nil => rfl
  | cons x rest ih =>
    simp only [saveReservations, List.foldl_cons]
    rw [saveStep_of_found s x (h x (List.mem_cons_self _ _))]
    exact ih (fun r hr => h r (List.mem_cons_of_mem _ hr))

theorem saveReservations_twice (s : Store) (l : List Reservation) :
    saveReservations (saveReservations s l) l = saveReservations s l :=
  saveReservations_of_found _ l (fun r hr => foundIn_saveReservations s l r hr)

/-- C5: `saveReservations` takes the reservations of `L` in order; each one is appended to
the end of the array under its passenger's key exactly when no entry under that key carries its
ID at that moment, and the store is left as it is otherwise; every array stored before the call is
a prefix of the array under the same key afterwards (entries stay in place, unchanged and in
order, also when `L` carries the same ID with other field values); and
`saveBookingAgentReservations` is the same function. -/
theorem saveReservations_appends_only (s : Store) (L : List Reservation) (r : Reservation)
    (k : String) :
    saveReservations s [] = s ∧
    saveReservations s (r :: L) = saveReservations (saveReservations s [r]) L ∧
    (saveReservations s [r]).entries k =
      (if k = r.passengerName ∧ ∀ e ∈ s.entries k, e.reservationID ≠ r.reservationID
       then s.entries k ++ [r] else s.entries k) ∧
    ((∃ e ∈ s.entries r.passengerName, e.reservationID = r.reservationID) ↔
      saveReservations s [r] = s) ∧
    s.entries k <+: (saveReservations s L).entries k ∧
    saveBookingAgentReservations s L = saveReservations s L := by
  refine ⟨rfl, rfl, entries_saveStep s r k, ?_, entries_prefix_saveReservations s L k, rfl⟩
  constructor
  · rintro ⟨e, he, hid⟩
    exact saveStep_of_found s r (foundIn_of_mem_entries s r e he hid)
  · intro h
    have h1 : foundIn (saveStep s r) r = true := foundIn_saveStep_self s r
    have h2 : saveStep s r = s := h
    rw [h2] at h1
    unfold foundIn at h1
    obtain ⟨e, he, hid⟩ := List.any_eq_true.1 h1
    exact ⟨e, he, by simpa using hid⟩

/-- C6: saving a list twice in succession leaves the store exactly as saving it once, for every
store and every list (repeated IDs included), in both files; and a reservation saved twice in
succession is held once more than before under its owner's key when its ID was not there, and
not at all more when it was. -/
theorem saveReservations_idempotent (s : Store) (L : List Reservation) (r : Reservation) :
    saveReservations (saveReservations s L) L = saveReservations s L ∧
    saveBookingAgentReservations (saveBookingAgentReservations s L) L
      = saveBookingAgentReservations s L ∧
    ((saveReservations (saveReservations s [r]) [r]).entries r.passengerName).countP
        (fun e => decide (e.reservationID = r.reservationID))
      = max 1 ((s.entries r.passengerName).countP
          (fun e => decide (e.reservationID = r.reservationID))) := by
  refine ⟨saveReservations_twice s L, saveReservations_twice s L, ?_⟩
  rw [saveReservations_twice s [r]]
  have he : (saveReservations s [r]).entries r.passengerName = _ :=
    entries_saveStep s r r.passengerName
  rw [he]
  by_cases hall : ∀ e ∈ s.entries r.passengerName, e.reservationID ≠ r.reservationID
  · have h0 : (s.entries r.passengerName).countP
        (fun e => decide (e.reservationID = r.reservationID)) = 0 := by
      rw [List.countP_eq_zero]
      intro e he; simpa using hall e he
    rw [if_pos ⟨rfl, hall⟩, List.countP_append, h0]
    simp
  · have hpos : 0 < (s.entries r.passengerName).countP
        (fun e => decide (e.reservationID = r.reservationID)) := by
      rw [List.countP_pos_iff]
      push_neg at hall
      obtain ⟨e, he, hid⟩ := hall
      exact ⟨e, he, by simpa using hid⟩
    rw [if_neg (fun h => hall h.2)]
    omega

end Reservation

/-! ## JSON round trip -/

theorem wrap32_of_isInt32 (n : Int) (h : IsInt32 n) : wrap32 n = n := by
  unfold IsInt32 at h
  unfold wrap32
  norm_num at h ⊢
  omega

theorem flight_json_roundtrip (f : Flight) (h : IsInt32 f.totalSeats) :
    Flight.fromJson f.toJson = some f := by
  simp [Flight.fromJson, Flight.toJson, Json.stringAt, Json.intAt, Json.atKey, Json.lookup,
    Json.getString, Json.getInt, wrap32_of_isInt32 f.totalSeats h]

/-- C7: for every reservation with a flight attached (whose seat count is a C++ `int`),
`fromJson (toJson r)` returns `r`: the ID, the passenger name, the nine fields of the flight, the
seat number, the payment method, the payment details and `isPaid` are all read back as they
were, for a paid and for an unpaid reservation. -/
theorem reservation_json_roundtrip (r : Reservation) (h : IsInt32 r.flight.totalSeats) :
    Reservation.fromJson r.toJson = some r := by
  have hf := flight_json_roundtrip r.flight h
  simp [Reservation.fromJson, Reservation.toJson, Json.stringAt, Json.boolAt, Json.atKey,
    Json.lookup, Json.getString, Json.getBool, Json.contains, hf]

/-- Witness for C7: the held reservation of alice and its paid version are both read back. -/
theorem reservation_json_roundtrip_witness :
    IsInt32 heldA100.flight.totalSeats ∧
    Reservation.fromJson heldA100.toJson = some heldA100 ∧
    Reservation.fromJson (Reservation.toJson { heldA100 with isPaid := true })
      = some { heldA100 with isPaid := true } :=
  ⟨by decide, reservation_json_roundtrip heldA100 (by decide),
   reservation_json_roundtrip { heldA100 with isPaid := true } (by decide)⟩

/-! ## Check-in -/

/-- C8: when the view holds a reservation with the given ID and `r` is the first one, check-in
succeeds if and only if `r.isPaid` is true; it then produces the boarding pass of `r`, which
shows the flight number, origin, destination, departure time and seat of `r`; when `r` is not
paid the outcome is `paymentPending` and no boarding pass is produced. -/
theorem Passenger.checkIn_iff_paid (self : Passenger) (resID : String) (r : Reservation)
    (h : self.reservations.find? (fun res => decide (res.reservationID = resID)) = some r) :
    ((∃ pass, self.checkIn resID = .success pass) ↔ r.isPaid = true) ∧
    (r.isPaid = true → self.checkIn resID = .success r.printBoardingPass) ∧
    (r.isPaid = false → self.checkIn resID = .paymentPending) ∧
    r.printBoardingPass =
      [("Reservation ID", r.reservationID), ("Passenger", r.passengerName),
       ("Flight", r.flight.flightNumber), ("Origin", r.flight.origin),
       ("Destination", r.flight.destination), ("Departure", r.flight.departureTime),
       ("Seat", r.seatNumber)] := by
  unfold Passenger.checkIn
  rw [h]
  cases hp : r.isPaid <;> simp [Reservation.printBoardingPass, hp]

/-- Witness for C8: the view of alice holds her unpaid reservation A100. -/
theorem Passenger.checkIn_iff_paid_witness :
    (Passenger.login "alice" aliceWorld).reservations.find?
        (fun res => decide (res.reservationID = "A100")) = some heldA100 ∧
    (Passenger.login "alice" aliceWorld).checkIn "A100" = .paymentPending :=
  ⟨by decide,
   (Passenger.checkIn_iff_paid (Passenger.login "alice" aliceWorld) "A100" heldA100
     (by decide)).2.2.1 (by decide)⟩

/-! ## The store only grows -/

namespace Reservation

theorem load_subset_saveStep (s : Store) (x e : Reservation) (he : e ∈ loadReservations s) :
    e ∈ loadReservations (saveStep s x) := by
  rcases load_saveStep s x with ⟨_, h⟩ | ⟨_, h⟩
  · rw [h]; exact he
  · exact h.symm.subset (List.mem_cons_of_mem _ he)

theorem load_subset_saveReservations (s : Store) (l : List Reservation) (e : Reservation)
    (he : e ∈ loadReservations s) : e ∈ loadReservations (saveReservations s l) := by
  induction l generalizing s with
  | nil => exact he
  | cons x rest ih =>
    simp only [saveReservations, List.foldl_cons]
    exact ih (saveStep s x) (load_subset_saveStep s x e he)

/-- No entry under `key` carries `resID`. -/
theorem fresh_saveStep (s : Store) (x : Reservation) (key resID : String)
    (hs : ∀ e ∈ s.entries key, e.reservationID ≠ resID)
    (hx : x.passengerName = key → x.reservationID ≠ resID) :
    ∀ e ∈ (saveStep s x).entries key, e.reservationID ≠ resID := by
  intro e he
  rw [entries_saveStep] at he
  split_ifs at he with hc
  · rcases List.mem_append.1 he with h | h
    · exact hs e h
    · have : e = x := by simpa using h
      rw [this]; exact hx hc.1.symm
  · exact hs e he

theorem fresh_saveReservations (s : Store) (l : List Reservation) (key resID : String)
    (hs : ∀ e ∈ s.entries key, e.reservationID ≠ resID)
    (hl : ∀ x ∈ l, x.passengerName = key → x.reservationID ≠ resID) :
    ∀ e ∈ (saveReservations s l).entries key, e.reservationID ≠ resID := by
  induction l generalizing s with
  | nil => exact hs
  | cons x rest ih =>
    simp only [saveReservations, List.foldl_cons]
    exact ih (saveStep s x)
      (fresh_saveStep s x key resID hs (hl x (List.mem_cons_self _ _)))
      (fun y hy => hl y (List.mem_cons_of_mem _ hy))

theorem mem_load_saveStep_self (s : Store) (r : Reservation)
    (h : ∀ e ∈ s.entries r.passengerName, e.reservationID ≠ r.reservationID) :
    r ∈ loadReservations (saveStep s r) := by
  apply Store.mem_load_of_mem_entries _ r.passengerName
  rw [entries_saveStep, if_pos ⟨rfl, h⟩]
  simp

theorem mem_load_save_append (s : Store) (l : List Reservation) (r : Reservation)
    (hs : ∀ e ∈ s.entries r.passengerName, e.reservationID ≠ r.reservationID)
    (hl : ∀ x ∈ l, x.passengerName = r.passengerName → x.reservationID ≠ r.reservationID) :
    r ∈ loadReservations (saveReservations s (l ++ [r])) := by
  rw [saveReservations_append]
  exact mem_load_saveStep_self _ r (fresh_saveReservations s l _ _ hs hl)

end Reservation

theorem Booking.run_general (b : Booking) (w : World) :
    (b.run w).general = w.general ∨
      ∃ l, (b.run w).general = Reservation.saveReservations w.general l := by
  cases b with
  | passenger username flightsVec inp =>
    rcases passenger_bookFlight_cases (Passenger.login username w) flightsVec inp w with
      ⟨_, h⟩ | ⟨r, _, _, _, _, _, _, _, _, _, hg, _⟩
    · left; simp only [Booking.run]; rw [h]
    · right; exact ⟨_, hg⟩
  | agent username flightsVec inp =>
    rcases agent_bookFlight_cases (BookingAgent.login username w) flightsVec inp w with
      ⟨_, h⟩ | ⟨r, _, _, _, _, _, _, _, _, _, hg, _⟩
    · left; simp only [Booking.run]; rw [h]
    · right; exact ⟨_, hg⟩

theorem mem_load_runBookings (w : World) (bs : List Booking) (e : Reservation)
    (he : e ∈ Reservation.loadReservations w.general) :
    e ∈ Reservation.loadReservations (runBookings w bs).general := by
  induction bs generalizing w with
  | nil => exact he
  | cons b rest ih =>
    simp only [runBookings, List.foldl_cons]
    apply ih (b.run w)
    rcases Booking.run_general b w with h | ⟨l, h⟩
    · rw [h]; exact he
    · rw [h]; exact Reservation.load_subset_saveReservations _ l e he

theorem Rejected_not_booked (o : BookOutcome) (r : Reservation) (h : o.Rejected) :
    ¬ (o = .successful r ∨ o = .onHold r) := by
  unfold BookOutcome.Rejected at h
  rintro (h2 | h2) <;> rw [h2] at h <;> simp at h

theorem passenger_bookFlight_seatTaken (q : Passenger) (flightsVec : List Flight)
    (inp : BookInput) (w : World) (selected : Flight) (n : Int)
    (h0 : ¬ inp.flightNumber = "0")
    (hsel : selectFlight flightsVec inp.flightNumber = some selected)
    (hst : stoi inp.seat = some n) (hn : ¬ n > selected.totalSeats)
    (hocc : occupied (Reservation.loadReservations w.general) inp.flightNumber inp.seat = true) :
    q.bookFlight flightsVec inp w = (.seatTaken, q, w) := by
  unfold Passenger.bookFlight
  simp only [h0, if_false, hsel, hst, hn, hocc, if_true]

/-- C9 (the code breaks the claim): the general file already holds A100 under alice; alice
books the free seat 13 of AA100 and the generator, whose IDs nothing checks against the file,
returns A100 again. The booking is reported as on hold and the new reservation is passed to
`saveReservations`, which drops it and leaves the file unchanged; the next attempt for the
same flight and seat is then not refused with `seatTaken`. -/
theorem repeated_id_booking_leaves_seat_free :
    ((Passenger.login "alice" aliceWorld).bookFlight sampleFlights (seat13 0 0) aliceWorld).1
      = .onHold ⟨"A100", "alice", flightAA100, "13", "Cash", "", false⟩ ∧
    ((Passenger.login "alice" aliceWorld).bookFlight sampleFlights (seat13 0 0) aliceWorld).2.2
      = aliceWorld ∧
    ((Passenger.login "bob" aliceWorld).bookFlight sampleFlights (seat13 1 100)
      ((Passenger.login "alice" aliceWorld).bookFlight sampleFlights (seat13 0 0)
        aliceWorld).2.2).1
      = .onHold ⟨"B200", "bob", flightAA100, "13", "Cash", "", false⟩ := by
  decide

/-- What holds when the generated ID is new: when a passenger-flow booking of seat `S` on
flight `F` goes through
(reported as successful or on hold) and the generated ID is carried by no reservation stored
under the actor's key or with the actor's passenger name, then after any further bookings
every later passenger-flow attempt for the same flight number and seat label ends with
`seatTaken` and leaves the actor's view and all files unchanged. -/
theorem second_booking_of_seat_fails (p : Passenger) (flightsVec : List Flight)
    (inp : BookInput) (w : World) (r : Reservation)
    (hbooked : (p.bookFlight flightsVec inp w).1 = .successful r ∨
      (p.bookFlight flightsVec inp w).1 = .onHold r)
    (hkey : ∀ e ∈ w.general.entries p.username,
      e.reservationID ≠ generateRandomReservationID inp.rand1 inp.rand2)
    (hname : ∀ e ∈ Reservation.loadReservations w.general, e.passengerName = p.username →
      e.reservationID ≠ generateRandomReservationID inp.rand1 inp.rand2)
    (between : List Booking) (q : Passenger) (later : BookInput)
    (hflight : later.flightNumber = inp.flightNumber) (hseat : later.seat = inp.seat) :
    q.bookFlight flightsVec later (runBookings (p.bookFlight flightsVec inp w).2.2 between)
      = (.seatTaken, q, runBookings (p.bookFlight flightsVec inp w).2.2 between) := by
  rcases passenger_bookFlight_cases p flightsVec inp w with
    ⟨hrej, _⟩ | ⟨r1, selected, n, h0, hsel, hst, hn, _, hsub, hout, hg, _⟩
  · exact absurd hbooked (Rejected_not_booked _ r hrej)
  · obtain ⟨hid, hnm, hfn, hse⟩ := hsub
    have hmem : r1 ∈ Reservation.loadReservations (p.bookFlight flightsVec inp w).2.2.general := by
      rw [hg]
      apply Reservation.mem_load_save_append
      · rw [hnm, hid]; exact hkey
      · intro x hx hxn
        rw [hid]; rw [hnm] at hxn
        exact hname x hx hxn
    have hmem2 := mem_load_runBookings _ between r1 hmem
    have hocc : occupied (Reservation.loadReservations
        (runBookings (p.bookFlight flightsVec inp w).2.2 between).general)
        later.flightNumber later.seat = true := by
      rw [occupied_eq_true_iff]
      exact ⟨r1, hmem2, by rw [hflight]; exact hfn, by rw [hseat]; exact hse⟩
    have h0b : ¬ later.flightNumber = "0" := by rw [hflight]; exact h0
    have hselb : selectFlight flightsVec later.flightNumber = some selected := by
      rw [hflight]; exact hsel
    have hstb : stoi later.seat = some n := by rw [hseat]; exact hst
    exact passenger_bookFlight_seatTaken q flightsVec later _ selected n h0b hselb hstb hn hocc

/-- Example: alice books seat 12 of AA100 in the empty world; bob then books seat 13,
and a later attempt of bob for seat 12 is refused. -/
theorem second_booking_of_seat_fails_witness :
    ((Passenger.login "alice" emptyWorld).bookFlight sampleFlights (seat12 0 0) emptyWorld).1
      = .onHold heldA100 ∧
    (Passenger.login "bob" emptyWorld).bookFlight sampleFlights (seat12 1 100)
      (runBookings
        ((Passenger.login "alice" emptyWorld).bookFlight sampleFlights (seat12 0 0)
          emptyWorld).2.2
        [.passenger "bob" sampleFlights (seat13 1 100)])
      = (.seatTaken, Passenger.login "bob" emptyWorld,
         runBookings
          ((Passenger.login "alice" emptyWorld).bookFlight sampleFlights (seat12 0 0)
            emptyWorld).2.2
          [.passenger "bob" sampleFlights (seat13 1 100)]) :=
  ⟨by decide,
   second_booking_of_seat_fails (Passenger.login "alice" emptyWorld) sampleFlights (seat12 0 0)
     emptyWorld heldA100 (Or.inr (by decide)) (by decide) (by decide)
     [.passenger "bob" sampleFlights (seat13 1 100)] (Passenger.login "bob" emptyWorld)
     (seat12 1 100) rfl rfl⟩

/-! ## Reservation IDs -/

namespace Store

theorem entries_mem_or_nil (s : Store) (key : String) :
    (key, s.entries key) ∈ s ∨ s.entries key = [] := by
  induction s with
  | nil => right; rfl
  | cons q rest ih =>
    obtain ⟨k0, a⟩ := q
    by_cases hk : k0 = key
    · left; subst hk; simp [entries]
    · rcases ih with h | h
      · left; simp only [entries, hk, if_false]; exact List.mem_cons_of_mem _ h
      · right; simp only [entries, hk, if_false]; exact h

theorem wellFormed_saveStep (s : Store) (r : Reservation) (h : s.WellFormed) :
    (Reservation.saveStep s r).WellFormed := by
  by_cases hf : Reservation.foundIn s r = true
  · rw [Reservation.saveStep_of_found s r hf]; exact h
  · have hf2 : Reservation.foundIn s r = false := by simpa using hf
    rw [Reservation.saveStep_of_not_found s r hf2]
    obtain ⟨hk, hfiled, huniq⟩ := h
    have hfresh := (Reservation.foundIn_eq_false_iff s r).1 hf2
    refine ⟨keysDistinct_pushBack s _ r hk, ?_, ?_⟩
    · intro p hp e he
      rcases mem_pushBack s _ r p hp with h1 | h1
      · exact hfiled p h1 e he
      · rw [h1] at he ⊢
        rcases List.mem_append.1 he with h2 | h2
        · rcases entries_mem_or_nil s r.passengerName with h3 | h3
          · exact hfiled _ h3 e h2
          · rw [h3] at h2; simp at h2
        · have : e = r := by simpa using h2
          rw [this]
    · intro p hp
      rcases mem_pushBack s _ r p hp with h1 | h1
      · exact huniq p h1
      · rw [h1]
        unfold UniqueIDs
        rw [List.pairwise_append]
        refine ⟨?_, by simp, ?_⟩
        · rcases entries_mem_or_nil s r.passengerName with h3 | h3
          · exact huniq _ h3
          · rw [h3]; exact List.Pairwise.nil
        · intro a ha b hb
          have : b = r := by simpa using hb
          rw [this]; exact hfresh a ha

theorem wellFormed_saveReservations (s : Store) (l : List Reservation) (h : s.WellFormed) :
    (Reservation.saveReservations s l).WellFormed := by
  induction l generalizing s with
  | nil => exact h
  | cons x rest ih =>
    simp only [Reservation.saveReservations, List.foldl_cons]
    exact ih _ (wellFormed_saveStep s x h)

theorem uniqueIDsPerPassenger_of_wellFormed (s : Store) (h : s.WellFormed) :
    UniqueIDsPerPassenger (Reservation.loadReservations s) := by
  induction s with
  | nil => exact List.Pairwise.nil
  | cons q rest ih =>
    obtain ⟨k0, a⟩ := q
    obtain ⟨hk, hfiled, huniq⟩ := h
    have hnd : k0 ∉ keys rest ∧ (keys rest).Nodup := by
      simpa [KeysDistinct, keys] using hk
    have hrest : WellFormed rest :=
      ⟨hnd.2, fun p hp => hfiled p (List.mem_cons_of_mem _ hp),
        fun p hp => huniq p (List.mem_cons_of_mem _ hp)⟩
    have ih2 := ih hrest
    unfold UniqueIDsPerPassenger at *
    simp only [Reservation.loadReservations, List.flatMap_cons] at ih2 ⊢
    rw [List.pairwise_append]
    refine ⟨?_, ih2, ?_⟩
    · have hu : UniqueIDs a := huniq (k0, a) (List.mem_cons_self _ _)
      exact List.Pairwise.imp (fun hne hand => hne hand.2) hu
    · intro x hx y hy hand
      have hxn : x.passengerName = k0 := hfiled (k0, a) (List.mem_cons_self _ _) x hx
      obtain ⟨p, hp, hyp⟩ := List.mem_flatMap.1 hy
      have hyn : y.passengerName = p.1 := hfiled p (List.mem_cons_of_mem _ hp) y hyp
      apply hnd.1
      have : k0 = p.1 := by rw [← hxn, hand.1, hyn]
      rw [this]
      exact List.mem_map_of_mem Prod.fst hp

end Store

theorem wellFormed_runBookings (w : World) (bs : List Booking) (h : w.general.WellFormed) :
    (runBookings w bs).general.WellFormed := by
  induction bs generalizing w with
  | nil => exact h
  | cons b rest ih =>
    simp only [runBookings, List.foldl_cons]
    apply ih (b.run w)
    rcases Booking.run_general b w with h1 | ⟨l, h1⟩
    · rw [h1]; exact h
    · rw [h1]; exact Store.wellFormed_saveReservations _ l h

/-- C10 (the code breaks the claim): starting from the empty general file, alice and bob each
book a seat and the generator returns A100 both times (as it does for two bookings within one
second, the generator being seeded with the time before every ID); both reservations are
stored, under different keys, with the same reservation ID. -/
theorem two_passengers_share_an_id :
    Reservation.loadReservations (runBookings emptyWorld
      [.passenger "alice" sampleFlights (seat12 0 0),
       .passenger "bob" sampleFlights (seat13 0 0)]).general
      = [⟨"A100", "alice", flightAA100, "12", "Cash", "", false⟩,
         ⟨"A100", "bob", flightAA100, "13", "Cash", "", false⟩] ∧
    ¬ UniqueIDs (Reservation.loadReservations (runBookings emptyWorld
      [.passenger "alice" sampleFlights (seat12 0 0),
       .passenger "bob" sampleFlights (seat13 0 0)]).general) := by
  decide

/-- What the ID test of the save does give: after any sequence of bookings (through either
flow) starting from an empty general file, no two reservations in the general file have both
the same passenger name and the same reservation ID, whichever IDs the generator returns. -/
theorem ids_unique_per_passenger (agent : Store) (cards : Option CardStore)
    (bs : List Booking) :
    UniqueIDsPerPassenger
      (Reservation.loadReservations (runBookings ⟨[], agent, cards⟩ bs).general) := by
  apply Store.uniqueIDsPerPassenger_of_wellFormed
  apply wellFormed_runBookings
  refine ⟨List.nodup_nil, ?_, ?_⟩
  · intro p hp; simp at hp
  · intro p hp; simp at hp

/-! ## The checks of `bookFlight`, one by one -/

theorem selectFlight_fold_none (flightsVec : List Flight) (flightNumber : String)
    (init : Option Flight) :
    flightsVec.foldl
      (fun selected fl => if fl.flightNumber = flightNumber then some fl else selected) init
        = none ↔ init = none ∧ ∀ f ∈ flightsVec, f.flightNumber ≠ flightNumber := by
  induction flightsVec generalizing init with
  | nil => simp
  | cons fl rest ih =>
    simp only [List.foldl_cons, ih, List.mem_cons, forall_eq_or_imp]
    by_cases hfl : fl.flightNumber = flightNumber
    · simp [hfl]
    · simp [hfl]

theorem selectFlight_eq_none_iff (flightsVec : List Flight) (flightNumber : String) :
    selectFlight flightsVec flightNumber = none ↔
      ∀ f ∈ flightsVec, f.flightNumber ≠ flightNumber := by
  unfold selectFlight
  rw [selectFlight_fold_none]
  simp

theorem selectFlight_fold_mem (flightsVec : List Flight) (flightNumber : String)
    (init : Option Flight) (f : Flight)
    (h : flightsVec.foldl
      (fun selected fl => if fl.flightNumber = flightNumber then some fl else selected) init
        = some f) :
    f ∈ flightsVec ∨ init = some f := by
  induction flightsVec generalizing init with
  | nil => right; exact h
  | cons fl rest ih =>
    simp only [List.foldl_cons] at h
    rcases ih _ h with h1 | h1
    · left; exact List.mem_cons_of_mem _ h1
    · by_cases hfl : fl.flightNumber = flightNumber
      · simp only [hfl, if_true, Option.some.injEq] at h1
        left; rw [← h1]; exact List.mem_cons_self _ _
      · simp only [hfl, if_false] at h1
        right; exact h1

theorem selectFlight_mem (flightsVec : List Flight) (flightNumber : String) (f : Flight)
    (h : selectFlight flightsVec flightNumber = some f) : f ∈ flightsVec := by
  rcases selectFlight_fold_mem flightsVec flightNumber none f h with h1 | h1
  · exact h1
  · simp at h1

theorem passenger_bookFlight_flightNotFound (q : Passenger) (flightsVec : List Flight)
    (inp : BookInput) (w : World) (h0 : ¬ inp.flightNumber = "0")
    (hsel : selectFlight flightsVec inp.flightNumber = none) :
    q.bookFlight flightsVec inp w = (.flightNotFound, q, w) := by
  unfold Passenger.bookFlight
  simp only [h0, if_false, hsel]

theorem agent_bookFlight_flightNotFound (q : BookingAgent) (flightsVec : List Flight)
    (inp : BookInput) (w : World) (h0 : ¬ inp.flightNumber = "0")
    (hsel : selectFlight flightsVec inp.flightNumber = none) :
    q.bookFlight flightsVec inp w = (.flightNotFound, q, w) := by
  unfold BookingAgent.bookFlight
  simp only [h0, if_false, hsel]

theorem passenger_bookFlight_invalidSeat (q : Passenger) (flightsVec : List Flight)
    (inp : BookInput) (w : World) (selected : Flight) (n : Int)
    (h0 : ¬ inp.flightNumber = "0")
    (hsel : selectFlight flightsVec inp.flightNumber = some selected)
    (hst : stoi inp.seat = some n) (hn : n > selected.totalSeats) :
    q.bookFlight flightsVec inp w = (.invalidSeat, q, w) := by
  unfold Passenger.bookFlight
  simp only [h0, if_false, hsel, hst, hn, if_true]

theorem agent_bookFlight_invalidSeat (q : BookingAgent) (flightsVec : List Flight)
    (inp : BookInput) (w : World) (selected : Flight) (n : Int)
    (h0 : ¬ inp.flightNumber = "0")
    (hsel : selectFlight flightsVec inp.flightNumber = some selected)
    (hst : stoi inp.seat = some n) (hn : n > selected.totalSeats) :
    q.bookFlight flightsVec inp w = (.invalidSeat, q, w) := by
  unfold BookingAgent.bookFlight
  simp only [h0, if_false, hsel, hst, hn, if_true]

theorem agent_bookFlight_seatTaken (q : BookingAgent) (flightsVec : List Flight)
    (inp : BookInput) (w : World) (selected : Flight) (n : Int)
    (h0 : ¬ inp.flightNumber = "0")
    (hsel : selectFlight flightsVec inp.flightNumber = some selected)
    (hst : stoi inp.seat = some n) (hn : ¬ n > selected.totalSeats)
    (hocc : occupied (Reservation.loadBookingAgentReservations w.agent) inp.flightNumber
      inp.seat = true) :
    q.bookFlight flightsVec inp w = (.seatTaken, q, w) := by
  unfold BookingAgent.bookFlight
  simp only [h0, if_false, hsel, hst, hn, hocc, if_true]

/-- The reservation `bookFlight` creates and `processPayment` fills in when cash is chosen. -/
theorem processPayment_cash (r : Reservation) (inp : PaymentInput) (cards : Option CardStore)
    (hm : inp.method = 1) :
    Payment.processPayment r inp cards
      = (true, { r with paymentMethod := "Cash", isPaid := false }, cards) := by
  simp [Payment.processPayment, hm]

theorem passenger_bookFlight_cash (q : Passenger) (flightsVec : List Flight)
    (inp : BookInput) (w : World) (selected : Flight) (n : Int)
    (h0 : ¬ inp.flightNumber = "0")
    (hsel : selectFlight flightsVec inp.flightNumber = some selected)
    (hst : stoi inp.seat = some n) (hn : ¬ n > selected.totalSeats)
    (hocc : occupied (Reservation.loadReservations w.general) inp.flightNumber inp.seat = false)
    (hm : inp.pay.method = 1) (r : Reservation)
    (hr : r = ⟨generateRandomReservationID inp.rand1 inp.rand2, q.username, selected, inp.seat,
      "Cash", "", false⟩) (g : Store)
    (hg : g = Reservation.saveReservations w.general
      (Reservation.loadReservations w.general ++ [r])) :
    q.bookFlight flightsVec inp w =
      (.onHold r, ⟨q.username, Reservation.loadReservations g⟩, ⟨g, w.agent, w.cards⟩) := by
  subst hr hg
  unfold Passenger.bookFlight
  simp [h0, hsel, hst, hn, hocc, processPayment_cash _ _ _ hm]

theorem agent_bookFlight_cash (q : BookingAgent) (flightsVec : List Flight)
    (inp : BookInput) (w : World) (selected : Flight) (n : Int)
    (h0 : ¬ inp.flightNumber = "0")
    (hsel : selectFlight flightsVec inp.flightNumber = some selected)
    (hst : stoi inp.seat = some n) (hn : ¬ n > selected.totalSeats)
    (hocc : occupied (Reservation.loadBookingAgentReservations w.agent) inp.flightNumber
      inp.seat = false)
    (hm : inp.pay.method = 1) (r : Reservation)
    (hr : r = ⟨generateRandomReservationID inp.rand1 inp.rand2, q.username, selected, inp.seat,
      "Cash", "", false⟩) :
    q.bookFlight flightsVec inp w =
      (.onHold r, q,
       ⟨Reservation.saveReservations w.general
          (Reservation.loadBookingAgentReservations w.agent ++ [r]),
        Reservation.saveBookingAgentReservations w.agent
          (Reservation.loadBookingAgentReservations w.agent ++ [r]),
        w.cards⟩) := by
  subst hr
  unfold BookingAgent.bookFlight
  simp [h0, hsel, hst, hn, hocc, processPayment_cash _ _ _ hm]

theorem passenger_bookFlight_free (q : Passenger) (flightsVec : List Flight)
    (inp : BookInput) (w : World) (selected : Flight) (n : Int)
    (h0 : ¬ inp.flightNumber = "0")
    (hsel : selectFlight flightsVec inp.flightNumber = some selected)
    (hst : stoi inp.seat = some n) (hn : ¬ n > selected.totalSeats)
    (hocc : occupied (Reservation.loadReservations w.general) inp.flightNumber inp.seat = false) :
    (q.bookFlight flightsVec inp w).1 ≠ .seatTaken := by
  unfold Passenger.bookFlight
  simp only [h0, if_false, hsel, hst, hn, hocc, Bool.false_eq_true]
  split_ifs <;> simp

theorem agent_bookFlight_free (q : BookingAgent) (flightsVec : List Flight)
    (inp : BookInput) (w : World) (selected : Flight) (n : Int)
    (h0 : ¬ inp.flightNumber = "0")
    (hsel : selectFlight flightsVec inp.flightNumber = some selected)
    (hst : stoi inp.seat = some n) (hn : ¬ n > selected.totalSeats)
    (hocc : occupied (Reservation.loadBookingAgentReservations w.agent) inp.flightNumber
      inp.seat = false) :
    (q.bookFlight flightsVec inp w).1 ≠ .seatTaken := by
  unfold BookingAgent.bookFlight
  simp only [h0, if_false, hsel, hst, hn, hocc, Bool.false_eq_true]
  split_ifs <;> simp

theorem occupied_ignores_isPaid (loaded : List Reservation) (flightNumber seat : String)
    (paid : Bool) :
    occupied (loaded.map (fun e => { e with isPaid := paid })) flightNumber seat
      = occupied loaded flightNumber seat := by
  induction loaded with
  | nil => rfl
  | cons e rest ih =>
    simp only [occupied, List.map_cons, List.any_cons] at ih ⊢
    rw [ih]

/-- C11: once the flight and seat-bound checks have passed, `bookFlight` (either flow) ends
with `seatTaken` if and only if some reservation loaded from the file it scans has the
requested flight number and a seat label equal, as a string, to the requested one; the scan
does not look at `isPaid`; and a stored reservation for "14" leaves "014" free. -/
theorem seat_check_compares_labels (b : Booking) (w : World) (selected : Flight) (n : Int)
    (h0 : b.input.flightNumber ≠ "0")
    (hsel : selectFlight b.flightsVec b.input.flightNumber = some selected)
    (hst : stoi b.input.seat = some n) (hn : n ≤ selected.totalSeats) :
    (b.outcome w = .seatTaken ↔
      ∃ e ∈ Reservation.loadReservations (b.checkedStore w),
        e.flight.flightNumber = b.input.flightNumber ∧ e.seatNumber = b.input.seat) ∧
    (∀ (loaded : List Reservation) (flightNumber seat : String) (paid : Bool),
      occupied (loaded.map (fun e => { e with isPaid := paid })) flightNumber seat
        = occupied loaded flightNumber seat) ∧
    occupied [heldSeat14] "AA100" "14" = true ∧
    occupied [heldSeat14] "AA100" "014" = false := by
  have hn2 : ¬ n > selected.totalSeats := not_lt.2 hn
  refine ⟨?_, occupied_ignores_isPaid, by decide, by decide⟩
  rw [← occupied_eq_true_iff]
  cases b with
  | passenger username flightsVec inp =>
    simp only [Booking.input, Booking.flightsVec, Booking.outcome, Booking.checkedStore] at *
    constructor
    · intro hout
      by_contra hocc
      have hocc2 : occupied (Reservation.loadReservations w.general) inp.flightNumber
          inp.seat = false := by simpa using hocc
      exact passenger_bookFlight_free _ flightsVec inp w selected n h0 hsel hst hn2 hocc2 hout
    · intro hocc
      rw [passenger_bookFlight_seatTaken _ flightsVec inp w selected n h0 hsel hst hn2 hocc]
  | agent username flightsVec inp =>
    simp only [Booking.input, Booking.flightsVec, Booking.outcome, Booking.checkedStore] at *
    constructor
    · intro hout
      by_contra hocc
      have hocc2 : occupied (Reservation.loadBookingAgentReservations w.agent)
          inp.flightNumber inp.seat = false := by simpa using hocc
      exact agent_bookFlight_free _ flightsVec inp w selected n h0 hsel hst hn2 hocc2 hout
    · intro hocc
      rw [agent_bookFlight_seatTaken _ flightsVec inp w selected n h0 hsel hst hn2 hocc]

/-- Witness for C11: with seat 14 of AA100 held (unpaid) by alice, bob asks for "014" and is
not refused, then asks for "14" and is refused. -/
theorem seat_check_compares_labels_witness :
    Booking.outcome seat14World (.passenger "bob" sampleFlights (seatInput "014"))
      ≠ .seatTaken ∧
    Booking.outcome seat14World (.passenger "bob" sampleFlights (seatInput "14"))
      = .seatTaken := by
  have h14 := seat_check_compares_labels (.passenger "bob" sampleFlights (seatInput "14"))
    seat14World flightAA100 14 (by decide) (by decide) (by decide) (by decide)
  have h014 := seat_check_compares_labels (.passenger "bob" sampleFlights (seatInput "014"))
    seat14World flightAA100 14 (by decide) (by decide) (by decide) (by decide)
  refine ⟨?_, h14.1.2 ⟨heldSeat14, by decide, by decide, by decide⟩⟩
  intro hout
  obtain ⟨e, he, _, hseat⟩ := h014.1.1 hout
  have : e = heldSeat14 := by simpa [seat14World, Booking.checkedStore,
    Reservation.loadReservations] using he
  rw [this] at hseat
  exact absurd hseat (by decide)

/-! ## Seat bounds and flight resolution -/

/-- C12 (the code breaks the claim): the seat label "99999999999" has an integer value above
the 150 seats of AA100, but `stoi` throws `out_of_range` on it and nothing in `bookFlight`
catches the exception, so the booking does not end with `invalidSeat`, in either flow. -/
theorem huge_seat_label_throws :
    digitsValue "99999999999".toList > flightAA100.totalSeats ∧
    stoi "99999999999" = none ∧
    Booking.outcome emptyWorld (.passenger "bob" sampleFlights (seatInput "99999999999"))
      = .stoiThrew ∧
    Booking.outcome emptyWorld (.agent "bob" sampleFlights (seatInput "99999999999"))
      = .stoiThrew := by
  decide

/-- What the bound check does give: for every resolved flight and every seat label that `stoi`
reads as an `int` greater than the flight's total seat count, booking (either flow) ends with
`invalidSeat`, whatever the stores hold and whatever the payment inputs are, and leaves the
general file, the agent file and the card file unchanged. -/
theorem seat_above_total_is_invalid (b : Booking) (w : World) (selected : Flight) (n : Int)
    (h0 : b.input.flightNumber ≠ "0")
    (hsel : selectFlight b.flightsVec b.input.flightNumber = some selected)
    (hst : stoi b.input.seat = some n) (hn : n > selected.totalSeats) :
    b.outcome w = .invalidSeat ∧ b.run w = w := by
  cases b with
  | passenger username flightsVec inp =>
    simp only [Booking.input, Booking.flightsVec, Booking.outcome, Booking.run] at *
    rw [passenger_bookFlight_invalidSeat _ flightsVec inp w selected n h0 hsel hst hn]
    exact ⟨rfl, rfl⟩
  | agent username flightsVec inp =>
    simp only [Booking.input, Booking.flightsVec, Booking.outcome, Booking.run] at *
    rw [agent_bookFlight_invalidSeat _ flightsVec inp w selected n h0 hsel hst hn]
    exact ⟨rfl, rfl⟩

/-- Example: seat "151" on AA100 (150 seats), with seat 12 already held. -/
theorem seat_above_total_is_invalid_witness :
    stoi "151" = some 151 ∧ (151 : Int) > flightAA100.totalSeats ∧
    Booking.outcome aliceWorld (.passenger "bob" sampleFlights (seatInput "151"))
      = .invalidSeat ∧
    Booking.run aliceWorld (.passenger "bob" sampleFlights (seatInput "151")) = aliceWorld :=
  ⟨by decide, by decide,
   seat_above_total_is_invalid (.passenger "bob" sampleFlights (seatInput "151")) aliceWorld
     flightAA100 151 (by decide) (by decide) (by decide) (by decide)⟩

/-- C13 (the code breaks the claim): the seat labels "-3" and "0" pass the only bound check
(`stoi(seat) > totalSeats`); the booking goes through and a reservation for seat "-3"
(respectively "0") is stored in the general file. -/
theorem seat_below_one_is_accepted :
    stoi "-3" = some (-3) ∧ stoi "0" = some 0 ∧
    Booking.outcome emptyWorld (.passenger "bob" sampleFlights (seatInput "-3"))
      = .onHold ⟨"B200", "bob", flightAA100, "-3", "Cash", "", false⟩ ∧
    Reservation.loadReservations
      (Booking.run emptyWorld (.passenger "bob" sampleFlights (seatInput "-3"))).general
      = [⟨"B200", "bob", flightAA100, "-3", "Cash", "", false⟩] ∧
    Booking.outcome emptyWorld (.passenger "bob" sampleFlights (seatInput "0"))
      = .onHold ⟨"B200", "bob", flightAA100, "0", "Cash", "", false⟩ ∧
    Booking.outcome emptyWorld (.agent "bob" sampleFlights (seatInput "-3"))
      = .onHold ⟨"B200", "bob", flightAA100, "-3", "Cash", "", false⟩ := by
  decide

/-- C14 (the code breaks the claim): on the seat label "abc" `stoi` throws
`invalid_argument`, which nothing in `bookFlight` catches, so the call does not end with
`invalidSeat`; on "12abc" `stoi` reads 12, the label is accepted and a reservation with seat
"12abc" is stored. -/
theorem non_numeric_seat_label_not_rejected :
    stoi "abc" = none ∧
    Booking.outcome emptyWorld (.passenger "bob" sampleFlights (seatInput "abc"))
      = .stoiThrew ∧
    Booking.outcome emptyWorld (.agent "bob" sampleFlights (seatInput "abc"))
      = .stoiThrew ∧
    stoi "12abc" = some 12 ∧
    Booking.outcome emptyWorld (.passenger "bob" sampleFlights (seatInput "12abc"))
      = .onHold ⟨"B200", "bob", flightAA100, "12abc", "Cash", "", false⟩ ∧
    Reservation.loadReservations
      (Booking.run emptyWorld (.passenger "bob" sampleFlights (seatInput "12abc"))).general
      = [⟨"B200", "bob", flightAA100, "12abc", "Cash", "", false⟩] := by
  decide

/-- C15 (the claim as stated fails): no flight of the directory carries the number "0", yet a
booking with flight number "0" does not end with `flightNotFound`: "0" is the cancel input
and `bookFlight` returns at once. -/
theorem flight_number_zero_cancels :
    (∀ f ∈ sampleFlights, f.flightNumber ≠ "0") ∧
    Booking.outcome emptyWorld (.passenger "bob" sampleFlights (flightInput "0"))
      = .cancelled ∧
    Booking.outcome emptyWorld (.agent "bob" sampleFlights (flightInput "0"))
      = .cancelled := by
  decide

/-- C15 (amended): a booking (either flow) with a flight number other than the cancel input
"0" that no flight of the directory carries ends with `flightNotFound`, whatever seat and
payment inputs would follow, and leaves the general, agent and card files unchanged; and
whenever a booking produces a reservation, the embedded flight is a flight of the directory
and has exactly the requested flight number. -/
theorem unknown_flight_not_found (b : Booking) (w : World)
    (h0 : b.input.flightNumber ≠ "0") :
    ((∀ f ∈ b.flightsVec, f.flightNumber ≠ b.input.flightNumber) →
      b.outcome w = .flightNotFound ∧ b.run w = w) ∧
    (∀ r, (b.outcome w = .successful r ∨ b.outcome w = .onHold r) →
      r.flight.flightNumber = b.input.flightNumber ∧ r.flight ∈ b.flightsVec ∧
      selectFlight b.flightsVec b.input.flightNumber = some r.flight) := by
  cases b with
  | passenger username flightsVec inp =>
    simp only [Booking.input, Booking.flightsVec, Booking.outcome, Booking.run] at *
    constructor
    · intro hnone
      have hsel := (selectFlight_eq_none_iff flightsVec inp.flightNumber).2 hnone
      rw [passenger_bookFlight_flightNotFound _ flightsVec inp w h0 hsel]
      exact ⟨rfl, rfl⟩
    · intro r hmade
      unfold Passenger.bookFlight at hmade
      cases hsel : selectFlight flightsVec inp.flightNumber with
      | none => simp [h0, hsel] at hmade
      | some selected =>
        have hfr := Payment.processPayment_frame
          ⟨generateRandomReservationID inp.rand1 inp.rand2, username, selected,
            inp.seat, "", "", false⟩ inp.pay w.cards
        have hflight : r.flight = selected := by
          cases hst : stoi inp.seat with
          | none => simp [h0, hsel, hst] at hmade
          | some n =>
            simp only [h0, if_false, hsel, hst, Passenger.login] at hmade
            split_ifs at hmade <;> simp at hmade <;> rw [← hmade] <;> exact hfr.2.2.1
        rw [hflight]
        exact ⟨selectFlight_flightNumber _ _ _ hsel, selectFlight_mem _ _ _ hsel, rfl⟩
  | agent username flightsVec inp =>
    simp only [Booking.input, Booking.flightsVec, Booking.outcome, Booking.run] at *
    constructor
    · intro hnone
      have hsel := (selectFlight_eq_none_iff flightsVec inp.flightNumber).2 hnone
      rw [agent_bookFlight_flightNotFound _ flightsVec inp w h0 hsel]
      exact ⟨rfl, rfl⟩
    · intro r hmade
      unfold BookingAgent.bookFlight at hmade
      cases hsel : selectFlight flightsVec inp.flightNumber with
      | none => simp [h0, hsel] at hmade
      | some selected =>
        have hfr := Payment.processPayment_frame
          ⟨generateRandomReservationID inp.rand1 inp.rand2, username, selected,
            inp.seat, "", "", false⟩ inp.pay w.cards
        have hflight : r.flight = selected := by
          cases hst : stoi inp.seat with
          | none => simp [h0, hsel, hst] at hmade
          | some n =>
            simp only [h0, if_false, hsel, hst, BookingAgent.login] at hmade
            split_ifs at hmade <;> simp at hmade <;> rw [← hmade] <;> exact hfr.2.2.1
        rw [hflight]
        exact ⟨selectFlight_flightNumber _ _ _ hsel, selectFlight_mem _ _ _ hsel, rfl⟩

/-- Witness for C15: no flight ZZ9 in the directory. -/
theorem unknown_flight_not_found_witness :
    (flightInput "ZZ9").flightNumber ≠ "0" ∧
    (∀ f ∈ sampleFlights, f.flightNumber ≠ "ZZ9") ∧
    Booking.outcome aliceWorld (.passenger "bob" sampleFlights (flightInput "ZZ9"))
      = .flightNotFound ∧
    Booking.run aliceWorld (.passenger "bob" sampleFlights (flightInput "ZZ9")) = aliceWorld :=
  ⟨by decide, by decide,
   (unknown_flight_not_found (.passenger "bob" sampleFlights (flightInput "ZZ9")) aliceWorld
     (by decide)).1 (by decide)⟩

/-! ## Where a booking writes -/

namespace Reservation

theorem saveStep_fresh (s : Store) (r : Reservation)
    (h : ∀ e ∈ s.entries r.passengerName, e.reservationID ≠ r.reservationID) :
    saveStep s r = s.pushBack r.passengerName r :=
  saveStep_of_not_found s r ((foundIn_eq_false_iff s r).2 h)

theorem save_append_fresh (g : Store) (l : List Reservation) (r : Reservation)
    (hg : ∀ e ∈ g.entries r.passengerName, e.reservationID ≠ r.reservationID)
    (hl : ∀ x ∈ l, x.passengerName = r.passengerName → x.reservationID ≠ r.reservationID) :
    saveReservations g (l ++ [r]) = (saveReservations g l).pushBack r.passengerName r := by
  rw [saveReservations_append]
  exact saveStep_fresh _ r (fresh_saveReservations g l r.passengerName r.reservationID hg hl)

theorem entries_save_append_fresh (g : Store) (l : List Reservation) (r : Reservation)
    (hg : ∀ e ∈ g.entries r.passengerName, e.reservationID ≠ r.reservationID)
    (hl : ∀ x ∈ l, x.passengerName = r.passengerName → x.reservationID ≠ r.reservationID) :
    ∃ before, (saveReservations g (l ++ [r])).entries r.passengerName = before ++ [r] ∧
      g.entries r.passengerName <+: before := by
  refine ⟨(saveReservations g l).entries r.passengerName, ?_,
    entries_prefix_saveReservations g l _⟩
  rw [save_append_fresh g l r hg hl, Store.entries_pushBack]
  simp

end Reservation

theorem BookOutcome.made_inj (o : BookOutcome) (r r1 : Reservation)
    (h : o = .successful r ∨ o = .onHold r) (h1 : o = .successful r1 ∨ o = .onHold r1) :
    r = r1 := by
  rcases h with h | h <;> rcases h1 with h1 | h1 <;> rw [h] at h1 <;> simp at h1 <;> exact h1

/-- C16: when a booking is made (reported as successful or on hold) and the generated ID is
not yet used by the actor (by no record under the actor's key in the general file or in the
scanned file, and by no record of the scanned file carrying the actor's name), the new
reservation is appended under the actor's username in the general file; through the
booking-agent flow it is also appended under that username in the agent file; through the
passenger flow the agent file is unchanged. When the scanned file holds every key once and
files records under their passenger name, each file that is written changes by exactly this
append (the general file of the agent flow after it has received the agent file's records). -/
theorem booking_writes_to_its_stores (b : Booking) (w : World) (r : Reservation)
    (hmade : b.outcome w = .successful r ∨ b.outcome w = .onHold r)
    (hfreshG : ∀ e ∈ w.general.entries b.username,
      e.reservationID ≠ generateRandomReservationID b.input.rand1 b.input.rand2)
    (hfreshC : ∀ e ∈ (b.checkedStore w).entries b.username,
      e.reservationID ≠ generateRandomReservationID b.input.rand1 b.input.rand2)
    (hname : ∀ e ∈ Reservation.loadReservations (b.checkedStore w),
      e.passengerName = b.username →
      e.reservationID ≠ generateRandomReservationID b.input.rand1 b.input.rand2) :
    r.passengerName = b.username ∧
    r.reservationID = generateRandomReservationID b.input.rand1 b.input.rand2 ∧
    (∃ before, (b.run w).general.entries b.username = before ++ [r] ∧
      w.general.entries b.username <+: before) ∧
    (b.isAgent = true →
      ∃ before, (b.run w).agent.entries b.username = before ++ [r] ∧
        w.agent.entries b.username <+: before) ∧
    (b.isAgent = false → (b.run w).agent = w.agent) ∧
    ((b.checkedStore w).KeysDistinct → (b.checkedStore w).FiledByName →
      (b.isAgent = false → (b.run w).general = w.general.pushBack b.username r) ∧
      (b.isAgent = true →
        (b.run w).agent = w.agent.pushBack b.username r ∧
        (b.run w).general =
          (Reservation.saveReservations w.general
            (Reservation.loadBookingAgentReservations w.agent)).pushBack b.username r)) := by
  cases b with
  | passenger username flightsVec inp =>
    simp only [Booking.input, Booking.username, Booking.outcome, Booking.run,
      Booking.checkedStore, Booking.isAgent] at *
    rcases passenger_bookFlight_cases (Passenger.login username w) flightsVec inp w with
      ⟨hrej, _⟩ | ⟨r1, _, _, _, _, _, _, _, hsub, hout, hg, ha⟩
    · exact absurd hmade (Rejected_not_booked _ r hrej)
    · have hr : r = r1 := BookOutcome.made_inj _ r r1 hmade hout
      subst hr
      obtain ⟨hid, hnm, _, _⟩ := hsub
      have hnm2 : r.passengerName = username := hnm
      have hfresh : ∀ e ∈ w.general.entries r.passengerName,
          e.reservationID ≠ r.reservationID := by rw [hnm2, hid]; exact hfreshG
      have hl : ∀ x ∈ Reservation.loadReservations w.general,
          x.passengerName = r.passengerName → x.reservationID ≠ r.reservationID := by
        rw [hnm2, hid]; exact hname
      have hent := Reservation.entries_save_append_fresh w.general _ r hfresh hl
      rw [hnm2] at hent
      refine ⟨hnm2, hid, by rw [hg]; exact hent, by simp, fun _ => ha, ?_⟩
      intro hk hf
      refine ⟨fun _ => ?_, by simp⟩
      rw [hg, Reservation.saveReservations_loaded_append w.general hk hf r,
        Reservation.saveStep_fresh w.general r hfresh, hnm2]
  | agent username flightsVec inp =>
    simp only [Booking.input, Booking.username, Booking.outcome, Booking.run,
      Booking.checkedStore, Booking.isAgent] at *
    rcases agent_bookFlight_cases (BookingAgent.login username w) flightsVec inp w with
      ⟨hrej, _⟩ | ⟨r1, _, _, _, _, _, _, _, hsub, hout, hg, ha⟩
    · exact absurd hmade (Rejected_not_booked _ r hrej)
    · have hr : r = r1 := BookOutcome.made_inj _ r r1 hmade hout
      subst hr
      obtain ⟨hid, hnm, _, _⟩ := hsub
      have hnm2 : r.passengerName = username := hnm
      have hfreshA : ∀ e ∈ w.agent.entries r.passengerName,
          e.reservationID ≠ r.reservationID := by rw [hnm2, hid]; exact hfreshC
      have hfreshG2 : ∀ e ∈ w.general.entries r.passengerName,
          e.reservationID ≠ r.reservationID := by rw [hnm2, hid]; exact hfreshG
      have hl : ∀ x ∈ Reservation.loadReservations w.agent,
          x.passengerName = r.passengerName → x.reservationID ≠ r.reservationID := by
        rw [hnm2, hid]; exact hname
      have hentG := Reservation.entries_save_append_fresh w.general _ r hfreshG2 hl
      have hentA := Reservation.entries_save_append_fresh w.agent _ r hfreshA hl
      have hgen := Reservation.save_append_fresh w.general _ r hfreshG2 hl
      rw [hnm2] at hentG hentA hgen
      refine ⟨hnm2, hid, by rw [hg]; exact hentG, fun _ => by rw [ha]; exact hentA,
        by simp, ?_⟩
      intro hk hf
      refine ⟨by simp, fun _ => ⟨?_, by rw [hg]; exact hgen⟩⟩
      rw [ha]
      have := Reservation.saveReservations_loaded_append w.agent hk hf r
      rw [Reservation.saveStep_fresh w.agent r hfreshA, hnm2] at this
      exact this

/-- Witness for C16: agent bob books seat 13 of AA100 while the general file holds the
reservation of alice; the new reservation is in both files. -/
theorem booking_writes_to_its_stores_witness :
    (Booking.run aliceWorld (.agent "bob" sampleFlights (seat13 1 100))).agent
      = [("bob", [⟨"B200", "bob", flightAA100, "13", "Cash", "", false⟩])] ∧
    (Booking.run aliceWorld (.agent "bob" sampleFlights (seat13 1 100))).general
      = [("alice", [heldA100]),
         ("bob", [⟨"B200", "bob", flightAA100, "13", "Cash", "", false⟩])] := by
  have h := booking_writes_to_its_stores (.agent "bob" sampleFlights (seat13 1 100))
    aliceWorld ⟨"B200", "bob", flightAA100, "13", "Cash", "", false⟩ (Or.inr (by decide))
    (by decide) (by decide) (by decide)
  obtain ⟨ha, hg⟩ := (h.2.2.2.2.2 (by decide) (by decide)).2 rfl
  exact ⟨ha.trans (by decide), hg.trans (by decide)⟩

/-- C17: a booking (either flow) that passes the flight, seat-bound and availability checks
and chooses cash, with a generated ID not yet used by the actor, is reported on hold with the
reservation made of the generated ID, the actor's username, the resolved flight, the
requested seat label, payment method "Cash", empty payment details and `isPaid = false`, and
exactly this reservation is then stored under the actor's key in the general file. -/
theorem cash_booking_is_held (b : Booking) (w : World) (selected : Flight) (n : Int)
    (h0 : b.input.flightNumber ≠ "0")
    (hsel : selectFlight b.flightsVec b.input.flightNumber = some selected)
    (hst : stoi b.input.seat = some n) (hn : n ≤ selected.totalSeats)
    (hocc : occupied (Reservation.loadReservations (b.checkedStore w))
      b.input.flightNumber b.input.seat = false)
    (hcash : b.input.pay.method = 1)
    (hfreshG : ∀ e ∈ w.general.entries b.username,
      e.reservationID ≠ generateRandomReservationID b.input.rand1 b.input.rand2)
    (hname : ∀ e ∈ Reservation.loadReservations (b.checkedStore w),
      e.passengerName = b.username →
      e.reservationID ≠ generateRandomReservationID b.input.rand1 b.input.rand2) :
    b.outcome w = .onHold ⟨generateRandomReservationID b.input.rand1 b.input.rand2,
      b.username, selected, b.input.seat, "Cash", "", false⟩ ∧
    (⟨generateRandomReservationID b.input.rand1 b.input.rand2, b.username, selected,
      b.input.seat, "Cash", "", false⟩ : Reservation) ∈ (b.run w).general.entries b.username ∧
    (⟨generateRandomReservationID b.input.rand1 b.input.rand2, b.username, selected,
      b.input.seat, "Cash", "", false⟩ : Reservation) ∈
        Reservation.loadReservations (b.run w).general := by
  have hn2 : ¬ n > selected.totalSeats := not_lt.2 hn
  have key : ∀ (u : String) (inp : BookInput) (l : List Reservation),
      (∀ e ∈ w.general.entries u,
        e.reservationID ≠ generateRandomReservationID inp.rand1 inp.rand2) →
      (∀ e ∈ l, e.passengerName = u →
        e.reservationID ≠ generateRandomReservationID inp.rand1 inp.rand2) →
      (⟨generateRandomReservationID inp.rand1 inp.rand2, u, selected, inp.seat, "Cash", "",
        false⟩ : Reservation) ∈ (Reservation.saveReservations w.general (l ++
          [⟨generateRandomReservationID inp.rand1 inp.rand2, u, selected, inp.seat, "Cash", "",
            false⟩])).entries u := by
    intro u inp l hg hl
    obtain ⟨before, hb, _⟩ := Reservation.entries_save_append_fresh w.general l
      ⟨generateRandomReservationID inp.rand1 inp.rand2, u, selected, inp.seat, "Cash", "",
        false⟩ hg hl
    rw [hb]; simp
  cases b with
  | passenger username flightsVec inp =>
    simp only [Booking.input, Booking.username, Booking.flightsVec, Booking.outcome,
      Booking.run, Booking.checkedStore] at *
    have hbook := passenger_bookFlight_cash (Passenger.login username w) flightsVec inp w
      selected n h0 hsel hst hn2 hocc hcash _ rfl _ rfl
    have hmem := key username inp (Reservation.loadReservations w.general) hfreshG hname
    rw [hbook]
    exact ⟨rfl, hmem, Store.mem_load_of_mem_entries _ _ _ hmem⟩
  | agent username flightsVec inp =>
    simp only [Booking.input, Booking.username, Booking.flightsVec, Booking.outcome,
      Booking.run, Booking.checkedStore] at *
    have hbook := agent_bookFlight_cash (BookingAgent.login username w) flightsVec inp w
      selected n h0 hsel hst hn2 hocc hcash _ rfl
    have hmem := key username inp (Reservation.loadReservations w.agent) hfreshG hname
    rw [hbook]
    exact ⟨rfl, hmem, Store.mem_load_of_mem_entries _ _ _ hmem⟩

/-- Witness for C17: bob books seat 13 of AA100 by cash while alice holds seat 12. -/
theorem cash_booking_is_held_witness :
    Booking.outcome aliceWorld (.passenger "bob" sampleFlights (seat13 1 100))
      = .onHold ⟨"B200", "bob", flightAA100, "13", "Cash", "", false⟩ ∧
    (⟨"B200", "bob", flightAA100, "13", "Cash", "", false⟩ : Reservation) ∈
      Reservation.loadReservations
        (Booking.run aliceWorld (.passenger "bob" sampleFlights (seat13 1 100))).general := by
  have h := cash_booking_is_held (.passenger "bob" sampleFlights (seat13 1 100)) aliceWorld
    flightAA100 13 (by decide) (by decide) (by decide) (by decide) (by decide) (by decide)
    (by decide) (by decide)
  exact ⟨h.1.trans (by decide), by
    have h3 := h.2.2
    have hid : generateRandomReservationID
        (Booking.input (.passenger "bob" sampleFlights (seat13 1 100))).rand1
        (Booking.input (.passenger "bob" sampleFlights (seat13 1 100))).rand2 = "B200" := by
      decide
    rw [hid] at h3
    exact h3⟩

/-! ## Sessions, confirmation and cancellation that find nothing -/

/-- C18 (the code breaks the claim): alice confirms the cash payment of her held reservation
A100, which turns the paid flag of A100 in her view to true; the confirmation is not written
to the general file, so the next menu choice that reloads the view (here cancelling an ID
nobody carries) turns the flag of A100 in her view back to false. -/
theorem paid_flag_reverts_after_reload :
    (Passenger.login "alice" aliceWorld).paidFlags "A100" = [false] ∧
    (runSession (Passenger.login "alice" aliceWorld, aliceWorld)
      [.confirm "A100"]).1.paidFlags "A100" = [true] ∧
    (runSession (Passenger.login "alice" aliceWorld, aliceWorld)
      [.confirm "A100", .cancel "Z999"]).1.paidFlags "A100" = [false] ∧
    (runSession (Passenger.login "alice" aliceWorld, aliceWorld)
      [.confirm "A100", .book sampleFlights (seat13 1 100)]).1.paidFlags "A100" = [false] := by
  decide

theorem confirmScan_eq_none (resID : String) (view : List Reservation)
    (h : ∀ r ∈ view, r.reservationID = resID → r.isPaid = true) :
    confirmScan resID view = none := by
  induction view with
  | nil => rfl
  | cons res rest ih =>
    have hres : ¬ (res.reservationID = resID ∧ res.isPaid = false) := by
      rintro ⟨hid, hp⟩
      have := h res (List.mem_cons_self _ _) hid
      rw [hp] at this
      exact Bool.false_ne_true this
    simp only [confirmScan, hres, if_false]
    rw [ih (fun r hr => h r (List.mem_cons_of_mem _ hr))]
    rfl

/-- C19: when every reservation of the view that carries the given ID is already paid (in
particular when none carries it), `confirmCashPayment` of a passenger and of a booking agent
reports "not found or already paid" and leaves the view, the general file, the agent file
and the card file as they are. -/
theorem confirm_without_held_match_is_noop (username : String) (view : List Reservation)
    (resID : String) (w : World)
    (h : ∀ r ∈ view, r.reservationID = resID → r.isPaid = true) :
    Passenger.confirmCashPayment ⟨username, view⟩ resID w
      = (.notFoundOrPaid, ⟨username, view⟩, w) ∧
    BookingAgent.confirmCashPayment ⟨username, view⟩ resID w
      = (.notFoundOrPaid, ⟨username, view⟩, w) := by
  have hs := confirmScan_eq_none resID view h
  constructor
  · simp [Passenger.confirmCashPayment, hs]
  · simp [BookingAgent.confirmCashPayment, hs]

/-- Witness for C19: the view holds only the paid reservation A100; confirming A100 again and
confirming an ID nobody carries both change nothing. -/
theorem confirm_without_held_match_is_noop_witness :
    Passenger.confirmCashPayment ⟨"alice", [{ heldA100 with isPaid := true }]⟩ "A100"
      aliceWorld
      = (.notFoundOrPaid, ⟨"alice", [{ heldA100 with isPaid := true }]⟩, aliceWorld) ∧
    Passenger.confirmCashPayment ⟨"alice", [{ heldA100 with isPaid := true }]⟩ "Z999"
      aliceWorld
      = (.notFoundOrPaid, ⟨"alice", [{ heldA100 with isPaid := true }]⟩, aliceWorld) :=
  ⟨(confirm_without_held_match_is_noop "alice" [{ heldA100 with isPaid := true }] "A100"
      aliceWorld (by decide)).1,
   (confirm_without_held_match_is_noop "alice" [{ heldA100 with isPaid := true }] "Z999"
      aliceWorld (by decide)).1⟩

/-- C20: cancelling an ID that no reservation loaded from the general file carries reports
"not found" and leaves the general file, the agent file and the card file as they are, for a
passenger and for a booking agent; the view is reloaded from the unchanged general file. -/
theorem cancel_unknown_id_is_noop (w : World) (resID : String) (p : Passenger)
    (a : BookingAgent)
    (h : ∀ r ∈ Reservation.loadReservations w.general, r.reservationID ≠ resID) :
    Reservation.removeReservation w.general resID = (.notFound, w.general) ∧
    p.cancelReservation resID w
      = (.notFound, ⟨p.username, Reservation.loadReservations w.general⟩, w) ∧
    a.cancelReservation resID w
      = (.notFound, ⟨a.username, Reservation.loadReservations w.general⟩, w) := by
  have hany : (Reservation.loadReservations w.general).any
      (fun r => decide (r.reservationID = resID)) = false := by
    simpa using h
  have hrem : Reservation.removeReservation w.general resID = (.notFound, w.general) := by
    simp [Reservation.removeReservation, hany]
  refine ⟨hrem, ?_, ?_⟩
  · simp [Passenger.cancelReservation, hrem]
  · simp [BookingAgent.cancelReservation, hrem]

/-- Witness for C20: nobody carries the ID Z999 in the world of alice. -/
theorem cancel_unknown_id_is_noop_witness :
    (Passenger.login "alice" aliceWorld).cancelReservation "Z999" aliceWorld
      = (.notFound, ⟨"alice", Reservation.loadReservations aliceWorld.general⟩, aliceWorld) :=
  (cancel_unknown_id_is_noop aliceWorld "Z999" (Passenger.login "alice" aliceWorld)
    (BookingAgent.login "bob" aliceWorld) (by decide)).2.1

/-! ## The reservation ID generator -/

set_option maxRecDepth 1000000 in
theorem three_digits (n : Fin 900) :
    (toString (n.val + 100)).toList.length = 3 ∧
    digitsValue (toString (n.val + 100)).toList = ((n.val + 100 : Nat) : Int) ∧
    (toString (n.val + 100)).toList.all Char.isDigit = true := by
  revert n; decide

theorem capital_letter (i : Fin 26) :
    (Char.ofNat (65 + i.val)).toNat = 65 + i.val ∧ (Char.ofNat (65 + i.val)).isUpper = true := by
  revert i; decide

theorem generateRandomReservationID_toList (rand1 rand2 : Nat) :
    (generateRandomReservationID rand1 rand2).toList
      = Char.ofNat (65 + rand1 % 26) :: (toString (rand2 % 900 + 100)).toList := by
  simp [generateRandomReservationID, String.toList, String.singleton]

theorem generateRandomReservationID_injOn (p q : Fin 26 × Fin 900)
    (h : generateRandomReservationID p.1 p.2 = generateRandomReservationID q.1 q.2) :
    p = q := by
  have hl := congrArg String.toList h
  rw [generateRandomReservationID_toList, generateRandomReservationID_toList] at hl
  rw [Nat.mod_eq_of_lt p.1.isLt, Nat.mod_eq_of_lt p.2.isLt, Nat.mod_eq_of_lt q.1.isLt,
    Nat.mod_eq_of_lt q.2.isLt] at hl
  obtain ⟨hc, hd⟩ := List.cons.inj hl
  have h1 : 65 + p.1.val = 65 + q.1.val := by
    rw [← (capital_letter p.1).1, ← (capital_letter q.1).1, hc]
  have h2 : ((p.2.val + 100 : Nat) : Int) = ((q.2.val + 100 : Nat) : Int) := by
    rw [← (three_digits p.2).2.1, ← (three_digits q.2).2.1, hd]
  have h3 : p.2.val = q.2.val := by omega
  have h4 : p.1.val = q.1.val := by omega
  exact Prod.ext (Fin.ext h4) (Fin.ext h3)

/-- C21: for all `rand()` results the generated ID is one capital letter A to Z followed by the
decimal digits of a number between 100 and 999, four characters in all; every such string is
generated for some pair of `rand()` results; and the generator has exactly 26 * 900 = 23,400
values. -/
theorem generateRandomReservationID_values :
    (∀ rand1 rand2 : Nat, ∃ i n, i < 26 ∧ 100 ≤ n ∧ n ≤ 999 ∧
      generateRandomReservationID rand1 rand2
        = String.singleton (Char.ofNat (65 + i)) ++ toString n ∧
      (Char.ofNat (65 + i)).isUpper = true ∧
      (generateRandomReservationID rand1 rand2).length = 4 ∧
      (generateRandomReservationID rand1 rand2).toList.head? = some (Char.ofNat (65 + i)) ∧
      (generateRandomReservationID rand1 rand2).toList.tail = (toString n).toList ∧
      (toString n).toList.all Char.isDigit = true) ∧
    (∀ i n : Nat, i < 26 → 100 ≤ n → n ≤ 999 → ∃ rand1 rand2,
      generateRandomReservationID rand1 rand2
        = String.singleton (Char.ofNat (65 + i)) ++ toString n) ∧
    (∀ rand1 rand2 : Nat, generateRandomReservationID rand1 rand2 ∈
      Finset.image (fun p : Fin 26 × Fin 900 => generateRandomReservationID p.1 p.2)
        Finset.univ) ∧
    (Finset.image (fun p : Fin 26 × Fin 900 => generateRandomReservationID p.1 p.2)
      Finset.univ).card = 23400 := by
  refine ⟨?_, ?_, ?_, ?_⟩
  · intro rand1 rand2
    have hi : rand1 % 26 < 26 := Nat.mod_lt _ (by norm_num)
    have hn : rand2 % 900 < 900 := Nat.mod_lt _ (by norm_num)
    have hd := three_digits ⟨rand2 % 900, hn⟩
    have hc := capital_letter ⟨rand1 % 26, hi⟩
    simp only at hd hc
    refine ⟨rand1 % 26, rand2 % 900 + 100, hi, by omega, by omega, rfl, hc.2, ?_, ?_, ?_, hd.2.2⟩
    · have : (generateRandomReservationID rand1 rand2).length
          = (generateRandomReservationID rand1 rand2).toList.length := rfl
      rw [this, generateRandomReservationID_toList, List.length_cons, hd.1]
    · rw [generateRandomReservationID_toList]; rfl
    · rw [generateRandomReservationID_toList]; rfl
  · intro i n hi h1 h2
    refine ⟨i, n - 100, ?_⟩
    have e1 : i % 26 = i := Nat.mod_eq_of_lt hi
    have e2 : (n - 100) % 900 + 100 = n := by omega
    simp only [generateRandomReservationID, e1, e2]
  · intro rand1 rand2
    rw [Finset.mem_image]
    refine ⟨(⟨rand1 % 26, Nat.mod_lt _ (by norm_num)⟩, ⟨rand2 % 900, Nat.mod_lt _ (by norm_num)⟩),
      Finset.mem_univ _, ?_⟩
    show generateRandomReservationID (rand1 % 26) (rand2 % 900) = _
    unfold generateRandomReservationID
    rw [Nat.mod_mod, Nat.mod_mod]
  · rw [Finset.card_image_of_injective _ (fun p q h => generateRandomReservationID_injOn p q h),
      Finset.card_univ, Fintype.card_prod, Fintype.card_fin, Fintype.card_fin]

/-! ## Whose reservations check-in and confirmation touch -/

/-- C22 (the code breaks the claim): the general file holds only the paid reservation B200 of
bob. Alice owns no reservation, yet her check-in with the ID B200 succeeds and prints the
boarding pass of bob: the view of a passenger is the whole file and `checkIn` does not
compare the passenger name. On the empty file, which agrees with this one on the (no)
reservations of alice, the same check-in answers "invalid reservation ID". -/
theorem checkIn_succeeds_on_foreign_reservation :
    (Reservation.loadReservations bobWorld.general).filter
      (fun r => decide (r.passengerName = "alice")) = [] ∧
    (Reservation.loadReservations emptyWorld.general).filter
      (fun r => decide (r.passengerName = "alice")) = [] ∧
    (Passenger.login "alice" bobWorld).checkIn "B200" = .success paidB200.printBoardingPass ∧
    (Passenger.login "alice" emptyWorld).checkIn "B200" = .invalidReservationID := by
  decide

/-- C23 (the claim as stated fails): the view holds an unpaid reservation whose payment method
is empty (not "Cash"); confirming its ID marks it paid. -/
theorem confirm_marks_non_cash_reservation :
    unpaidNoMethod.paymentMethod ≠ "Cash" ∧ unpaidNoMethod.isPaid = false ∧
    (Passenger.confirmCashPayment ⟨"alice", [unpaidNoMethod]⟩ "D400"
      emptyWorld).2.1.reservations = [{ unpaidNoMethod with isPaid := true }] ∧
    (BookingAgent.confirmCashPayment ⟨"alice", [unpaidNoMethod]⟩ "D400"
      emptyWorld).2.1.reservations = [{ unpaidNoMethod with isPaid := true }] := by
  decide

theorem confirmScan_first_unpaid (resID : String) (before after : List Reservation)
    (r : Reservation)
    (hbefore : ∀ x ∈ before, ¬ (x.reservationID = resID ∧ x.isPaid = false))
    (hid : r.reservationID = resID) (hunpaid : r.isPaid = false) :
    confirmScan resID (before ++ r :: after)
      = some (before ++ { r with isPaid := true } :: after, { r with isPaid := true }) := by
  induction before with
  | nil => simp [confirmScan, hid, hunpaid]
  | cons x rest ih =>
    have hx := hbefore x (List.mem_cons_self _ _)
    have ih2 := ih (fun y hy => hbefore y (List.mem_cons_of_mem _ hy))
    have happ : (x :: rest) ++ r :: after = x :: (rest ++ r :: after) := rfl
    rw [happ]
    simp only [confirmScan, hx, if_false]
    rw [ih2]
    rfl

/-- C23 (amended): `confirmCashPayment` (of a passenger and of a booking agent) marks paid
exactly the first reservation of the view that carries the given ID and has `isPaid = false`,
whatever its payment method; its other fields, and every other reservation of the view, are
left as they are, and the updated view is what is passed to the save. -/
theorem confirm_marks_first_unpaid (username : String) (before after : List Reservation)
    (r : Reservation) (resID : String) (w : World)
    (hbefore : ∀ x ∈ before, ¬ (x.reservationID = resID ∧ x.isPaid = false))
    (hid : r.reservationID = resID) (hunpaid : r.isPaid = false) :
    Passenger.confirmCashPayment ⟨username, before ++ r :: after⟩ resID w
      = (.confirmed (Reservation.printBoardingPass { r with isPaid := true }),
         ⟨username, before ++ { r with isPaid := true } :: after⟩,
         ⟨Reservation.saveReservations w.general
            (before ++ { r with isPaid := true } :: after), w.agent, w.cards⟩) ∧
    BookingAgent.confirmCashPayment ⟨username, before ++ r :: after⟩ resID w
      = (.confirmed (Reservation.printBoardingPass { r with isPaid := true }),
         ⟨username, before ++ { r with isPaid := true } :: after⟩,
         ⟨Reservation.saveReservations w.general
            (before ++ { r with isPaid := true } :: after),
          Reservation.saveBookingAgentReservations w.agent
            (before ++ { r with isPaid := true } :: after), w.cards⟩) := by
  have hs := confirmScan_first_unpaid resID before after r hbefore hid hunpaid
  constructor
  · simp [Passenger.confirmCashPayment, hs]
  · simp [BookingAgent.confirmCashPayment, hs]

/-- Witness for C23: the view holds the paid B200 and then the held A100; confirming A100
marks A100 paid and leaves B200 as it is. -/
theorem confirm_marks_first_unpaid_witness :
    (Passenger.confirmCashPayment ⟨"alice", [paidB200, heldA100]⟩ "A100"
      emptyWorld).2.1.reservations = [paidB200, { heldA100 with isPaid := true }] :=
  congrArg (fun x => x.2.1.reservations)
    (confirm_marks_first_unpaid "alice" [paidB200] [] heldA100 "A100" emptyWorld
      (by decide) (by decide) (by decide)).1

/-! ## Card payment -/

namespace CardStore

theorem find_set (s : CardStore) (key : String) (c : Card) (k : String) :
    (s.set key c).find k = if k = key then some c else s.find k := by
  induction s with
  | nil =>
    by_cases hk : key = k
    · subst hk; simp [set, find]
    · have hk2 : ¬ k = key := fun h => hk h.symm
      simp [set, find, hk, hk2]
  | cons p rest ih =>
    obtain ⟨k0, c0⟩ := p
    by_cases h0 : k0 = key
    · subst h0
      by_cases hk : k0 = k
      · subst hk; simp [set, find]
      · have hk2 : ¬ k = k0 := fun h => hk h.symm
        simp [set, find, hk, hk2]
    · by_cases hins : keyLess key k0 = true ∧ find rest key = none
      · by_cases hk : key = k
        · subst hk; simp [set, find, h0, hins]
        · have hk2 : ¬ k = key := fun h => hk h.symm
          simp [set, find, h0, hins, hk, hk2]
      · by_cases hk : k0 = k
        · subst hk
          simp [set, find, h0, hins]
        · simp only [set, h0, if_false, hins, find, hk, ih]

end CardStore

/-- C24: when the card file holds a card for the reservation's passenger and the CVV typed at
the saved-card prompt equals the stored CVV, `processCardPayment` returns true with
`isPaid = true`, reads nothing but that CVV from the console (no card number, expiry or
holder), and leaves the payment method, the payment details, every other field of the
reservation and the card file as they are. -/
theorem saved_card_with_matching_cvv (reservation : Reservation) (inp : PaymentInput)
    (allCards : CardStore) (card : Card)
    (hsaved : allCards.find reservation.passengerName = some card)
    (hcvv : card.cvv = inp.savedCvv) :
    Payment.processCardPayment reservation inp (some allCards)
      = (true, { reservation with isPaid := true }, some allCards) ∧
    Payment.cardPaymentReads reservation inp (some allCards) = [.savedCvv] ∧
    (Payment.processCardPayment reservation inp (some allCards)).2.1.paymentMethod
      = reservation.paymentMethod ∧
    (Payment.processCardPayment reservation inp (some allCards)).2.1.paymentDetails
      = reservation.paymentDetails := by
  simp [Payment.processCardPayment, Payment.cardPaymentReads, hsaved, hcvv]

/-- Witness for C24: alice has the card with CVV 123 saved and types 123. -/
theorem saved_card_with_matching_cvv_witness :
    Payment.processCardPayment createdD400 (payCard "123") (some sampleCards)
      = (true, { createdD400 with isPaid := true }, some sampleCards) ∧
    Payment.cardPaymentReads createdD400 (payCard "123") (some sampleCards) = [.savedCvv] :=
  ⟨(saved_card_with_matching_cvv createdD400 (payCard "123") sampleCards aliceCard
      (by decide) (by decide)).1,
   (saved_card_with_matching_cvv createdD400 (payCard "123") sampleCards aliceCard
      (by decide) (by decide)).2.1⟩

/-- C25: with a readable card file, when no card is saved for the passenger or the CVV typed
at the saved-card prompt differs from the saved one, `processCardPayment` reads the card
number, expiry, holder and CVV of a new card and returns true with `isPaid = true`,
`paymentMethod` the entered card number and `paymentDetails` the entered CVV; afterwards the
card file maps the passenger to exactly the entered record and every other username to what
it had before. -/
theorem new_card_entry_always_succeeds (reservation : Reservation) (inp : PaymentInput)
    (allCards : CardStore)
    (hnew : allCards.find reservation.passengerName = none ∨
      ∃ card, allCards.find reservation.passengerName = some card ∧
        card.cvv ≠ inp.savedCvv) :
    (Payment.processCardPayment reservation inp (some allCards)).1 = true ∧
    (Payment.processCardPayment reservation inp (some allCards)).2.1
      = { reservation with paymentMethod := inp.cardNumber, paymentDetails := inp.cvv,
                           isPaid := true } ∧
    (∃ after, (Payment.processCardPayment reservation inp (some allCards)).2.2 = some after ∧
      after.find reservation.passengerName
        = some ⟨inp.cardNumber, inp.cvv, inp.expDate, inp.cardHolder⟩ ∧
      ∀ k, k ≠ reservation.passengerName → after.find k = allCards.find k) ∧
    (∃ first, Payment.cardPaymentReads reservation inp (some allCards)
      = first ++ [.cardNumber, .expDate, .cardHolder, .cvv]) := by
  have hset : ∀ k, (CardStore.set allCards reservation.passengerName
      ⟨inp.cardNumber, inp.cvv, inp.expDate, inp.cardHolder⟩).find k =
      if k = reservation.passengerName
      then some ⟨inp.cardNumber, inp.cvv, inp.expDate, inp.cardHolder⟩
      else allCards.find k := fun k => CardStore.find_set _ _ _ k
  rcases hnew with hnone | ⟨card, hsome, hne⟩
  · refine ⟨?_, ?_, ⟨CardStore.set allCards reservation.passengerName
      ⟨inp.cardNumber, inp.cvv, inp.expDate, inp.cardHolder⟩, ?_, ?_, ?_⟩, ⟨[], ?_⟩⟩
    · simp [Payment.processCardPayment, hnone]
    · simp [Payment.processCardPayment, hnone]
    · simp [Payment.processCardPayment, hnone, Payment.saveCardInfo]
    · rw [hset]; simp
    · intro k hk; rw [hset]; simp [hk]
    · simp [Payment.cardPaymentReads, hnone]
  · refine ⟨?_, ?_, ⟨CardStore.set allCards reservation.passengerName
      ⟨inp.cardNumber, inp.cvv, inp.expDate, inp.cardHolder⟩, ?_, ?_, ?_⟩, ⟨[.savedCvv], ?_⟩⟩
    · simp [Payment.processCardPayment, hsome, hne]
    · simp [Payment.processCardPayment, hsome, hne]
    · simp [Payment.processCardPayment, hsome, hne, Payment.saveCardInfo]
    · rw [hset]; simp
    · intro k hk; rw [hset]; simp [hk]
    · simp [Payment.cardPaymentReads, hsome, hne]

/-- Witness for C25: alice has the card with CVV 123 saved and types 000, then a new card. -/
theorem new_card_entry_always_succeeds_witness :
    (Payment.processCardPayment createdD400 (payCard "000") (some sampleCards)).2.1
      = { createdD400 with paymentMethod := "4242", paymentDetails := "777", isPaid := true } :=
  (new_card_entry_always_succeeds createdD400 (payCard "000") sampleCards
    (Or.inr ⟨aliceCard, by decide, by decide⟩)).2.1

/-! ## Removal, repeated IDs, failed payments, merged agent records -/

/-- C26: on a general file that holds every key once and files every record under its
passenger name, `removeReservation` returns the file as it was, for every ID, present or not;
so does `cancelReservation` with all three files. -/
theorem removeReservation_leaves_store (g : Store) (hk : g.KeysDistinct) (hf : g.FiledByName)
    (reservationID : String) :
    (Reservation.removeReservation g reservationID).2 = g ∧
    ∀ (p : Passenger) (agent : Store) (cards : Option CardStore),
      (p.cancelReservation reservationID ⟨g, agent, cards⟩).2.2 = ⟨g, agent, cards⟩ := by
  have hrem : (Reservation.removeReservation g reservationID).2 = g := by
    unfold Reservation.removeReservation
    by_cases hany : (Reservation.loadReservations g).any
        (fun r => decide (r.reservationID = reservationID)) = true
    · simp only [hany, if_true]
      exact Reservation.saveReservations_of_loaded g hk hf _
        (fun e he => List.mem_of_mem_eraseP he)
    · simp only [hany, if_false, Bool.false_eq_true]
  refine ⟨hrem, ?_⟩
  intro p agent cards
  simp only [Passenger.cancelReservation]
  rw [hrem]

/-- Witness for C26: removing the stored ID A100 leaves the file of alice as it was. -/
theorem removeReservation_leaves_store_witness :
    aliceStore.KeysDistinct ∧ aliceStore.FiledByName ∧
    (Reservation.removeReservation aliceStore "A100").2 = aliceStore :=
  ⟨by decide, by decide,
   (removeReservation_leaves_store aliceStore (by decide) (by decide) "A100").1⟩

/-- C27 (the claim as stated fails): both files hold B200 under the key of agent bob, and the
agent file also holds a reservation of carol that the general file lacks. Bob books seat 13
and the generator returns B200 again: the booking is reported on hold, the new reservation is
dropped, but the general file does not stay as it was, it receives the reservation of
carol. -/
theorem repeated_id_agent_booking_changes_general_store :
    (∃ e ∈ staleWorld.general.entries "bob", e.reservationID = "B200") ∧
    (∃ e ∈ staleWorld.agent.entries "bob", e.reservationID = "B200") ∧
    Booking.outcome staleWorld (.agent "bob" sampleFlights (seat13 1 100))
      = .onHold ⟨"B200", "bob", flightAA100, "13", "Cash", "", false⟩ ∧
    (Booking.run staleWorld (.agent "bob" sampleFlights (seat13 1 100))).general
      = [("bob", [bobHeld]), ("carol", [carolHeld])] ∧
    (Booking.run staleWorld (.agent "bob" sampleFlights (seat13 1 100))).general
      ≠ staleWorld.general := by
  decide

/-- C27 (amended): when the generated ID is already carried by a reservation under the
actor's own key (in the general file and in the file the flow scans) and every reservation
the flow loads is already stored under its passenger's key and ID in the general file and in
the scanned file, a booking that passes all checks and is reported as successful or on hold
leaves the general file and the agent file unchanged: the new reservation is not among the
reservations of the scanned file and its flight and seat stay free for the next attempt. -/
theorem repeated_id_booking_is_dropped (b : Booking) (w : World) (r : Reservation)
    (hmade : b.outcome w = .successful r ∨ b.outcome w = .onHold r)
    (husedG : ∃ e ∈ w.general.entries b.username,
      e.reservationID = generateRandomReservationID b.input.rand1 b.input.rand2)
    (husedC : ∃ e ∈ (b.checkedStore w).entries b.username,
      e.reservationID = generateRandomReservationID b.input.rand1 b.input.rand2)
    (hstoredG : ∀ x ∈ Reservation.loadReservations (b.checkedStore w),
      ∃ e ∈ w.general.entries x.passengerName, e.reservationID = x.reservationID)
    (hstoredC : ∀ x ∈ Reservation.loadReservations (b.checkedStore w),
      ∃ e ∈ (b.checkedStore w).entries x.passengerName, e.reservationID = x.reservationID) :
    (b.run w).general = w.general ∧ (b.run w).agent = w.agent ∧
    r ∉ Reservation.loadReservations (b.checkedStore (b.run w)) ∧
    occupied (Reservation.loadReservations (b.checkedStore (b.run w)))
      b.input.flightNumber b.input.seat = false := by
  have drop : ∀ (s : Store) (l : List Reservation) (x : Reservation),
      (∀ y ∈ l, ∃ e ∈ s.entries y.passengerName, e.reservationID = y.reservationID) →
      (∃ e ∈ s.entries x.passengerName, e.reservationID = x.reservationID) →
      Reservation.saveReservations s (l ++ [x]) = s := by
    intro s l x hl hx
    apply Reservation.saveReservations_of_found
    intro y hy
    rcases List.mem_append.1 hy with h | h
    · obtain ⟨e, he, hid⟩ := hl y h
      exact Reservation.foundIn_of_mem_entries s y e he hid
    · have hyx : y = x := by simpa using h
      rw [hyx]
      obtain ⟨e, he, hid⟩ := hx
      exact Reservation.foundIn_of_mem_entries s x e he hid
  have free : ∀ (l : List Reservation) (inp : BookInput) (u : String),
      Submitted u inp r → occupied l inp.flightNumber inp.seat = false → r ∉ l := by
    intro l inp u hsub hocc hmem
    exact (occupied_eq_false_iff _ _ _).1 hocc r hmem ⟨hsub.2.2.1, hsub.2.2.2⟩
  cases b with
  | passenger username flightsVec inp =>
    simp only [Booking.input, Booking.username, Booking.outcome, Booking.run,
      Booking.checkedStore] at *
    rcases passenger_bookFlight_cases (Passenger.login username w) flightsVec inp w with
      ⟨hrej, _⟩ | ⟨r1, _, _, _, _, _, _, hocc, hsub, hout, hg, ha⟩
    · exact absurd hmade (Rejected_not_booked _ r hrej)
    · have hr : r = r1 := BookOutcome.made_inj _ r r1 hmade hout
      subst hr
      have hx : ∃ e ∈ w.general.entries r.passengerName,
          e.reservationID = r.reservationID := by
        rw [hsub.1, hsub.2.1]; exact husedG
      have hgen : ((Passenger.login username w).bookFlight flightsVec inp w).2.2.general
          = w.general := by rw [hg]; exact drop w.general _ r hstoredG hx
      rw [hgen]
      exact ⟨rfl, ha, free _ inp _ hsub hocc, hocc⟩
  | agent username flightsVec inp =>
    simp only [Booking.input, Booking.username, Booking.outcome, Booking.run,
      Booking.checkedStore] at *
    rcases agent_bookFlight_cases (BookingAgent.login username w) flightsVec inp w with
      ⟨hrej, _⟩ | ⟨r1, _, _, _, _, _, _, hocc, hsub, hout, hg, ha⟩
    · exact absurd hmade (Rejected_not_booked _ r hrej)
    · have hr : r = r1 := BookOutcome.made_inj _ r r1 hmade hout
      subst hr
      have hxG : ∃ e ∈ w.general.entries r.passengerName,
          e.reservationID = r.reservationID := by
        rw [hsub.1, hsub.2.1]; exact husedG
      have hxC : ∃ e ∈ w.agent.entries r.passengerName,
          e.reservationID = r.reservationID := by
        rw [hsub.1, hsub.2.1]; exact husedC
      have hgen : ((BookingAgent.login username w).bookFlight flightsVec inp w).2.2.general
          = w.general := by rw [hg]; exact drop w.general _ r hstoredG hxG
      have hag : ((BookingAgent.login username w).bookFlight flightsVec inp w).2.2.agent
          = w.agent := by rw [ha]; exact drop w.agent _ r hstoredC hxC
      rw [hgen, hag]
      exact ⟨rfl, rfl, free _ inp _ hsub hocc, hocc⟩

/-- Witness for C27: the general file holds A100 under alice; alice books seat 13 and the
generator returns A100 again. -/
theorem repeated_id_booking_is_dropped_witness :
    Booking.outcome aliceWorld (.passenger "alice" sampleFlights (seat13 0 0))
      = .onHold ⟨"A100", "alice", flightAA100, "13", "Cash", "", false⟩ ∧
    (Booking.run aliceWorld (.passenger "alice" sampleFlights (seat13 0 0))).general
      = aliceWorld.general :=
  ⟨by decide,
   (repeated_id_booking_is_dropped (.passenger "alice" sampleFlights (seat13 0 0)) aliceWorld
     ⟨"A100", "alice", flightAA100, "13", "Cash", "", false⟩ (Or.inr (by decide))
     (by decide) (by decide) (by decide) (by decide)).1⟩

theorem processPayment_failed (r : Reservation) (inp : PaymentInput)
    (cards : Option CardStore)
    (h : (inp.method ≠ 1 ∧ inp.method ≠ 2) ∨ (inp.method = 2 ∧ cards = none)) :
    Payment.processPayment r inp cards = (false, r, cards) := by
  rcases h with ⟨h1, h2⟩ | ⟨h2, hc⟩
  · simp [Payment.processPayment, h1, h2]
  · subst hc
    simp [Payment.processPayment, h2, Payment.processCardPayment]

theorem passenger_bookFlight_submits (q : Passenger) (flightsVec : List Flight)
    (inp : BookInput) (w : World) (selected : Flight) (n : Int)
    (h0 : ¬ inp.flightNumber = "0")
    (hsel : selectFlight flightsVec inp.flightNumber = some selected)
    (hst : stoi inp.seat = some n) (hn : ¬ n > selected.totalSeats)
    (hocc : occupied (Reservation.loadReservations w.general) inp.flightNumber inp.seat = false)
    (r : Reservation)
    (hr : r = (Payment.processPayment
      ⟨generateRandomReservationID inp.rand1 inp.rand2, q.username, selected, inp.seat, "", "",
        false⟩ inp.pay w.cards).2.1) :
    ((q.bookFlight flightsVec inp w).1 = .successful r ∨
      (q.bookFlight flightsVec inp w).1 = .onHold r) ∧
    (r.isPaid = false → (q.bookFlight flightsVec inp w).1 = .onHold r) ∧
    (q.bookFlight flightsVec inp w).2.2.general =
      Reservation.saveReservations w.general (Reservation.loadReservations w.general ++ [r]) := by
  have hpu := Payment.processPayment_paid_or_unpaid
    ⟨generateRandomReservationID inp.rand1 inp.rand2, q.username, selected, inp.seat, "", "",
      false⟩ inp.pay w.cards rfl
  subst hr
  unfold Passenger.bookFlight
  simp only [h0, if_false, hsel, hst, hn, hocc, Bool.false_eq_true]
  split_ifs <;> simp_all

theorem agent_bookFlight_submits (q : BookingAgent) (flightsVec : List Flight)
    (inp : BookInput) (w : World) (selected : Flight) (n : Int)
    (h0 : ¬ inp.flightNumber = "0")
    (hsel : selectFlight flightsVec inp.flightNumber = some selected)
    (hst : stoi inp.seat = some n) (hn : ¬ n > selected.totalSeats)
    (hocc : occupied (Reservation.loadBookingAgentReservations w.agent) inp.flightNumber
      inp.seat = false)
    (r : Reservation)
    (hr : r = (Payment.processPayment
      ⟨generateRandomReservationID inp.rand1 inp.rand2, q.username, selected, inp.seat, "", "",
        false⟩ inp.pay w.cards).2.1) :
    ((q.bookFlight flightsVec inp w).1 = .successful r ∨
      (q.bookFlight flightsVec inp w).1 = .onHold r) ∧
    (r.isPaid = false → (q.bookFlight flightsVec inp w).1 = .onHold r) ∧
    (q.bookFlight flightsVec inp w).2.2.general =
      Reservation.saveReservations w.general
        (Reservation.loadBookingAgentReservations w.agent ++ [r]) ∧
    (q.bookFlight flightsVec inp w).2.2.agent =
      Reservation.saveBookingAgentReservations w.agent
        (Reservation.loadBookingAgentReservations w.agent ++ [r]) := by
  have hpu := Payment.processPayment_paid_or_unpaid
    ⟨generateRandomReservationID inp.rand1 inp.rand2, q.username, selected, inp.seat, "", "",
      false⟩ inp.pay w.cards rfl
  subst hr
  unfold BookingAgent.bookFlight
  simp only [h0, if_false, hsel, hst, hn, hocc, Bool.false_eq_true]
  split_ifs <;> simp_all

/-- What the flows do after the checks: in both flows, once the flight, seat-bound and
availability checks have passed, the
reservation that `processPayment` leaves is passed to the save whatever the payment outcome,
and the call never ends on the "Payment failed" branch; when the payment choice is neither 1
nor 2, or card is chosen and the card file cannot be opened, the reservation passed on is the
created one (generated ID, username, resolved flight, seat, empty payment method and details,
unpaid) and the call ends on the "on hold" branch. -/
theorem failed_payment_still_submits (b : Booking) (w : World) (selected : Flight) (n : Int)
    (h0 : b.input.flightNumber ≠ "0")
    (hsel : selectFlight b.flightsVec b.input.flightNumber = some selected)
    (hst : stoi b.input.seat = some n) (hn : n ≤ selected.totalSeats)
    (hocc : occupied (Reservation.loadReservations (b.checkedStore w))
      b.input.flightNumber b.input.seat = false) :
    b.outcome w ≠ .paymentFailed ∧
    (∃ r, (b.outcome w = .successful r ∨ b.outcome w = .onHold r) ∧
      (b.run w).general = Reservation.saveReservations w.general
        (Reservation.loadReservations (b.checkedStore w) ++ [r]) ∧
      (b.isAgent = true → (b.run w).agent = Reservation.saveBookingAgentReservations w.agent
        (Reservation.loadBookingAgentReservations w.agent ++ [r]))) ∧
    (((b.input.pay.method ≠ 1 ∧ b.input.pay.method ≠ 2) ∨
        (b.input.pay.method = 2 ∧ w.cards = none)) →
      b.outcome w = .onHold ⟨generateRandomReservationID b.input.rand1 b.input.rand2,
        b.username, selected, b.input.seat, "", "", false⟩ ∧
      (b.run w).general = Reservation.saveReservations w.general
        (Reservation.loadReservations (b.checkedStore w) ++
          [⟨generateRandomReservationID b.input.rand1 b.input.rand2, b.username, selected,
            b.input.seat, "", "", false⟩])) := by
  have hn2 : ¬ n > selected.totalSeats := not_lt.2 hn
  cases b with
  | passenger username flightsVec inp =>
    simp only [Booking.input, Booking.username, Booking.flightsVec, Booking.outcome,
      Booking.run, Booking.checkedStore, Booking.isAgent] at *
    obtain ⟨hout, hhold, hg⟩ := passenger_bookFlight_submits (Passenger.login username w)
      flightsVec inp w selected n h0 hsel hst hn2 hocc _ rfl
    refine ⟨?_, ⟨_, hout, hg, by simp⟩, ?_⟩
    · rcases hout with h | h <;> rw [h] <;> simp
    · intro hfail
      have hp := processPayment_failed
        ⟨generateRandomReservationID inp.rand1 inp.rand2, username, selected, inp.seat, "", "",
          false⟩ inp.pay w.cards hfail
      simp only [Passenger.login] at hhold hg
      rw [hp] at hhold hg
      exact ⟨hhold rfl, hg⟩
  | agent username flightsVec inp =>
    simp only [Booking.input, Booking.username, Booking.flightsVec, Booking.outcome,
      Booking.run, Booking.checkedStore, Booking.isAgent] at *
    obtain ⟨hout, hhold, hg, ha⟩ := agent_bookFlight_submits (BookingAgent.login username w)
      flightsVec inp w selected n h0 hsel hst hn2 hocc _ rfl
    refine ⟨?_, ⟨_, hout, hg, fun _ => ha⟩, ?_⟩
    · rcases hout with h | h <;> rw [h] <;> simp
    · intro hfail
      have hp := processPayment_failed
        ⟨generateRandomReservationID inp.rand1 inp.rand2, username, selected, inp.seat, "", "",
          false⟩ inp.pay w.cards hfail
      simp only [BookingAgent.login] at hhold hg
      rw [hp] at hhold hg
      exact ⟨hhold rfl, hg⟩

/-- Example: bob books seat 13 of AA100 and types 7 at the payment prompt; the
reservation is stored unpaid with an empty payment method. -/
theorem failed_payment_still_submits_witness :
    Booking.outcome aliceWorld (.passenger "bob" sampleFlights ⟨"AA100", "13", 1, 100, payInvalid⟩)
      = .onHold ⟨"B200", "bob", flightAA100, "13", "", "", false⟩ ∧
    (Booking.run aliceWorld
      (.passenger "bob" sampleFlights ⟨"AA100", "13", 1, 100, payInvalid⟩)).general
      = [("alice", [heldA100]), ("bob", [⟨"B200", "bob", flightAA100, "13", "", "", false⟩])] := by
  have h := (failed_payment_still_submits
    (.passenger "bob" sampleFlights ⟨"AA100", "13", 1, 100, payInvalid⟩) aliceWorld
    flightAA100 13 (by decide) (by decide) (by decide) (by decide) (by decide)).2.2
    (Or.inl ⟨by decide, by decide⟩)
  exact ⟨h.1.trans (by decide), h.2.trans (by decide)⟩

/-- C29: after a booking-agent booking that passes the flight, seat-bound and availability
checks (reported as successful or on hold), every reservation loaded from the agent file
before the booking has an entry with its ID under its passenger's key in the general file,
also when the general file held no such entry before. -/
theorem agent_booking_merges_agent_store (a : BookingAgent) (flightsVec : List Flight)
    (inp : BookInput) (w : World) (r : Reservation)
    (hmade : (a.bookFlight flightsVec inp w).1 = .successful r ∨
      (a.bookFlight flightsVec inp w).1 = .onHold r) :
    ∀ x ∈ Reservation.loadBookingAgentReservations w.agent,
      ∃ e ∈ (a.bookFlight flightsVec inp w).2.2.general.entries x.passengerName,
        e.reservationID = x.reservationID := by
  intro x hx
  rcases agent_bookFlight_cases a flightsVec inp w with
    ⟨hrej, _⟩ | ⟨r1, _, _, _, _, _, _, _, _, _, hg, _⟩
  · exact absurd hmade (Rejected_not_booked _ r hrej)
  · rw [hg]
    have hfound := Reservation.foundIn_saveReservations w.general
      (Reservation.loadBookingAgentReservations w.agent ++ [r1]) x
      (List.mem_append_left _ hx)
    unfold Reservation.foundIn at hfound
    obtain ⟨e, he, hid⟩ := List.any_eq_true.1 hfound
    exact ⟨e, he, by simpa using hid⟩

/-- Witness for C29: the agent file holds a reservation of carol that the general file lacks;
after agent bob books seat 13 the general file holds it under carol. -/
theorem agent_booking_merges_agent_store_witness :
    carolWorld.general.entries "carol" = [] ∧
    ∃ e ∈ ((BookingAgent.login "bob" carolWorld).bookFlight sampleFlights (seat13 1 100)
        carolWorld).2.2.general.entries "carol", e.reservationID = "C300" :=
  ⟨by decide,
   agent_booking_merges_agent_store (BookingAgent.login "bob" carolWorld) sampleFlights
     (seat13 1 100) carolWorld ⟨"B200", "bob", flightAA100, "13", "Cash", "", false⟩
     (Or.inr (by decide)) ⟨"C300", "carol", flightAA100, "50", "Cash", "", false⟩ (by decide)⟩

/-! ## Well-formedness of the files -/

theorem filed_unique_saveStep (s : Store) (r : Reservation)
    (hfiled : s.FiledByName) (huniq : s.UniqueIDsPerKey) :
    (Reservation.saveStep s r).FiledByName ∧ (Reservation.saveStep s r).UniqueIDsPerKey := by
  by_cases hf : Reservation.foundIn s r = true
  · rw [Reservation.saveStep_of_found s r hf]; exact ⟨hfiled, huniq⟩
  · have hf2 : Reservation.foundIn s r = false := by simpa using hf
    rw [Reservation.saveStep_of_not_found s r hf2]
    have hfresh := (Reservation.foundIn_eq_false_iff s r).1 hf2
    constructor
    · intro p hp e he
      rcases Store.mem_pushBack s _ r p hp with h1 | h1
      · exact hfiled p h1 e he
      · rw [h1] at he ⊢
        rcases List.mem_append.1 he with h2 | h2
        · rcases Store.entries_mem_or_nil s r.passengerName with h3 | h3
          · exact hfiled _ h3 e h2
          · rw [h3] at h2; simp at h2
        · have : e = r := by simpa using h2
          rw [this]
    · intro p hp
      rcases Store.mem_pushBack s _ r p hp with h1 | h1
      · exact huniq p h1
      · rw [h1]
        unfold UniqueIDs
        rw [List.pairwise_append]
        refine ⟨?_, by simp, ?_⟩
        · rcases Store.entries_mem_or_nil s r.passengerName with h3 | h3
          · exact huniq _ h3
          · rw [h3]; exact List.Pairwise.nil
        · intro a ha b hb
          have : b = r := by simpa using hb
          rw [this]; exact hfresh a ha

theorem filed_unique_saveReservations (s : Store) (l : List Reservation)
    (hfiled : s.FiledByName) (huniq : s.UniqueIDsPerKey) :
    (Reservation.saveReservations s l).FiledByName ∧
    (Reservation.saveReservations s l).UniqueIDsPerKey := by
  induction l generalizing s with
  | nil => exact ⟨hfiled, huniq⟩
  | cons x rest ih =>
    simp only [Reservation.saveReservations, List.foldl_cons]
    have h := filed_unique_saveStep s x hfiled huniq
    exact ih _ h.1 h.2

theorem keysDistinct_saveReservations (s : Store) (l : List Reservation)
    (hk : s.KeysDistinct) : (Reservation.saveReservations s l).KeysDistinct := by
  induction l generalizing s with
  | nil => exact hk
  | cons x rest ih =>
    simp only [Reservation.saveReservations, List.foldl_cons]
    apply ih
    by_cases hf : Reservation.foundIn s x = true
    · rw [Reservation.saveStep_of_found s x hf]; exact hk
    · have hf2 : Reservation.foundIn s x = false := by simpa using hf
      rw [Reservation.saveStep_of_not_found s x hf2]
      exact Store.keysDistinct_pushBack s _ x hk

/-- C30: if every record of a file is filed under the key equal to its passenger name and no
key holds two records with the same reservation ID, the same is true of the file after
`saveReservations` and after `saveBookingAgentReservations` of any list of reservations; a
file that holds every key once still does so afterwards. -/
theorem save_preserves_well_formedness (s : Store) (l : List Reservation)
    (hfiled : s.FiledByName) (huniq : s.UniqueIDsPerKey) :
    (Reservation.saveReservations s l).FiledByName ∧
    (Reservation.saveReservations s l).UniqueIDsPerKey ∧
    (Reservation.saveBookingAgentReservations s l).FiledByName ∧
    (Reservation.saveBookingAgentReservations s l).UniqueIDsPerKey ∧
    (s.KeysDistinct → (Reservation.saveReservations s l).KeysDistinct ∧
      (Reservation.saveBookingAgentReservations s l).KeysDistinct) := by
  have h := filed_unique_saveReservations s l hfiled huniq
  exact ⟨h.1, h.2, h.1, h.2, fun hk =>
    ⟨keysDistinct_saveReservations s l hk, keysDistinct_saveReservations s l hk⟩⟩

/-- Witness for C30: saving a second record with the ID A100 and a record of bob into the
file of alice. -/
theorem save_preserves_well_formedness_witness :
    aliceStore.FiledByName ∧ aliceStore.UniqueIDsPerKey ∧
    (Reservation.saveReservations aliceStore
      [{ heldA100 with isPaid := true }, paidB200]).FiledByName ∧
    (Reservation.saveReservations aliceStore
      [{ heldA100 with isPaid := true }, paidB200]).UniqueIDsPerKey :=
  ⟨by decide, by unfold Store.UniqueIDsPerKey; decide,
   (save_preserves_well_formedness aliceStore [{ heldA100 with isPaid := true }, paidB200]
      (by decide) (by unfold Store.UniqueIDsPerKey; decide)).1,
   (save_preserves_well_formedness aliceStore [{ heldA100 with isPaid := true }, paidB200]
      (by decide) (by unfold Store.UniqueIDsPerKey; decide)).2.1⟩

/-! ## Failed payments and repeated IDs -/

/-- What holds for a failed payment when the generated ID is new: once the checks have passed,
with a payment choice that is neither 1 nor 2, or with card chosen and an unreadable card
file, and a generated ID not yet used by the actor, the created reservation (empty payment
method and details, unpaid) is stored under the actor's key in the general file. -/
theorem failed_payment_stored_when_id_fresh (b : Booking) (w : World) (selected : Flight)
    (n : Int) (h0 : b.input.flightNumber ≠ "0")
    (hsel : selectFlight b.flightsVec b.input.flightNumber = some selected)
    (hst : stoi b.input.seat = some n) (hn : n ≤ selected.totalSeats)
    (hocc : occupied (Reservation.loadReservations (b.checkedStore w))
      b.input.flightNumber b.input.seat = false)
    (hfail : (b.input.pay.method ≠ 1 ∧ b.input.pay.method ≠ 2) ∨
      (b.input.pay.method = 2 ∧ w.cards = none))
    (hfreshG : ∀ e ∈ w.general.entries b.username,
      e.reservationID ≠ generateRandomReservationID b.input.rand1 b.input.rand2)
    (hname : ∀ e ∈ Reservation.loadReservations (b.checkedStore w),
      e.passengerName = b.username →
      e.reservationID ≠ generateRandomReservationID b.input.rand1 b.input.rand2) :
    b.outcome w = .onHold ⟨generateRandomReservationID b.input.rand1 b.input.rand2,
      b.username, selected, b.input.seat, "", "", false⟩ ∧
    (⟨generateRandomReservationID b.input.rand1 b.input.rand2, b.username, selected,
      b.input.seat, "", "", false⟩ : Reservation) ∈ (b.run w).general.entries b.username := by
  have hn2 : ¬ n > selected.totalSeats := not_lt.2 hn
  have key : ∀ (u : String) (inp : BookInput) (l : List Reservation),
      (∀ e ∈ w.general.entries u,
        e.reservationID ≠ generateRandomReservationID inp.rand1 inp.rand2) →
      (∀ e ∈ l, e.passengerName = u →
        e.reservationID ≠ generateRandomReservationID inp.rand1 inp.rand2) →
      (⟨generateRandomReservationID inp.rand1 inp.rand2, u, selected, inp.seat, "", "",
        false⟩ : Reservation) ∈ (Reservation.saveReservations w.general (l ++
          [⟨generateRandomReservationID inp.rand1 inp.rand2, u, selected, inp.seat, "", "",
            false⟩])).entries u := by
    intro u inp l hg hl
    obtain ⟨before, hb, _⟩ := Reservation.entries_save_append_fresh w.general l
      ⟨generateRandomReservationID inp.rand1 inp.rand2, u, selected, inp.seat, "", "",
        false⟩ hg hl
    rw [hb]; simp
  cases b with
  | passenger username flightsVec inp =>
    simp only [Booking.input, Booking.username, Booking.flightsVec, Booking.outcome,
      Booking.run, Booking.checkedStore] at *
    obtain ⟨_, hhold, hg⟩ := passenger_bookFlight_submits (Passenger.login username w)
      flightsVec inp w selected n h0 hsel hst hn2 hocc _ rfl
    have hp := processPayment_failed
      ⟨generateRandomReservationID inp.rand1 inp.rand2, username, selected, inp.seat, "", "",
        false⟩ inp.pay w.cards hfail
    simp only [Passenger.login] at hhold hg
    rw [hp] at hhold hg
    refine ⟨hhold rfl, ?_⟩
    simp only [Passenger.login]
    rw [hg]
    exact key username inp _ hfreshG hname
  | agent username flightsVec inp =>
    simp only [Booking.input, Booking.username, Booking.flightsVec, Booking.outcome,
      Booking.run, Booking.checkedStore] at *
    obtain ⟨_, hhold, hg, _⟩ := agent_bookFlight_submits (BookingAgent.login username w)
      flightsVec inp w selected n h0 hsel hst hn2 hocc _ rfl
    have hp := processPayment_failed
      ⟨generateRandomReservationID inp.rand1 inp.rand2, username, selected, inp.seat, "", "",
        false⟩ inp.pay w.cards hfail
    simp only [BookingAgent.login] at hhold hg
    rw [hp] at hhold hg
    refine ⟨hhold rfl, ?_⟩
    simp only [BookingAgent.login]
    rw [hg]
    exact key username inp _ hfreshG hname

end Airline
